import Mathlib

/-!
# PartitionTableSearcher: the partition table locater

A shallow embedding of `partitionTableLocater.go`.  The image file is a list
of bytes with a read cursor; `encoding/binary`'s `Read` is the fixed-width
little-endian struct decoder of the Go standard library, embedded as a
cursor over a buffer that holds exactly the bytes of the structure.
Standard output is the list of the lines printed, in order.
-/

set_option maxRecDepth 20000

namespace PartitionTableLocater

/-- A byte (`uint8`, `byte`). -/
abbrev Byte := Fin 256

/-! ## Errors -/

/-- The errors that reach the program: `io.EOF`, `io.ErrUnexpectedEOF`, and the
`*fs.PathError` of a failed `os.Open` or `Seek`. -/
inductive Err where
  | EOF
  | ErrUnexpectedEOF
  | PathError (Op Path msg : String)
  deriving DecidableEq

/-- Text of an error as `%v` prints it. -/
def Err.Error : Err → String
  | .EOF => "EOF"
  | .ErrUnexpectedEOF => "unexpected EOF"
  | .PathError Op Path msg => Op ++ " " ++ Path ++ ": " ++ msg

/-! ## The image file -/

/-- An open regular file (`*os.File`): its name, its content, the read cursor. -/
structure File where
  name : String
  data : List Byte
  pos : Nat
  deriving DecidableEq

/-- The file system as `os.Open` sees it: a name gives the content of a
readable file, or the error of the failed open. -/
abbrev FileSystem := String → Except Err (List Byte)

/-- Go `os.Open`: the file is opened with the cursor at offset 0. -/
def osOpen (fs : FileSystem) (fileName : String) : Except Err File :=
  match fs fileName with
  | .error err => .error err
  | .ok data => .ok { name := fileName, data := data, pos := 0 }

/-- Go `file.Seek(offset, 0)`: an absolute seek.  A negative offset is refused;
any other offset is accepted, also one past the end of the file. -/
def File.Seek (file : File) (offset : Int) : Except Err File :=
  if offset < 0 then .error (.PathError "seek" file.name "invalid argument")
  else .ok { file with pos := offset.toNat }

/-- The error of a read that finds too few bytes: `io.EOF` when it finds
none, `io.ErrUnexpectedEOF` otherwise. -/
def shortReadErr (found : Nat) : Err :=
  if found = 0 then .EOF else .ErrUnexpectedEOF

/-- Go `io.ReadFull(file, buf)` with `len(buf) = n`: all `n` bytes from the
cursor on, or `io.EOF` when no byte is left, or `io.ErrUnexpectedEOF` when
some but fewer than `n` bytes are left.  The cursor moves past what was read. -/
def ioReadFull (file : File) (n : Nat) : Except Err (List Byte) × File :=
  let rest := file.data.drop file.pos
  if n ≤ rest.length then (.ok (rest.take n), { file with pos := file.pos + n })
  else if rest.length = 0 then (.error .EOF, file)
  else (.error .ErrUnexpectedEOF, { file with pos := file.pos + rest.length })

/-! ## Little-endian integers (`binary.LittleEndian`) -/

/-- Go `binary.LittleEndian.Uint16(b)`: `b[0] | b[1]<<8`. -/
def Uint16 (b : List Byte) : Nat :=
  (b.getD 0 0).val + (b.getD 1 0).val * 2 ^ 8

/-- Go `binary.LittleEndian.Uint32(b)`. -/
def Uint32 (b : List Byte) : Nat :=
  (b.getD 0 0).val + (b.getD 1 0).val * 2 ^ 8 + (b.getD 2 0).val * 2 ^ 16
    + (b.getD 3 0).val * 2 ^ 24

/-- Go `binary.LittleEndian.Uint64(b)`. -/
def Uint64 (b : List Byte) : Nat :=
  (b.getD 0 0).val + (b.getD 1 0).val * 2 ^ 8 + (b.getD 2 0).val * 2 ^ 16
    + (b.getD 3 0).val * 2 ^ 24 + (b.getD 4 0).val * 2 ^ 32 + (b.getD 5 0).val * 2 ^ 40
    + (b.getD 6 0).val * 2 ^ 48 + (b.getD 7 0).val * 2 ^ 56

/-! ## The structures of the program -/

/-- Go `type Partition struct`: one 16-byte entry of the MBR partition table.
`[3]uint8` is a list of three bytes; `uint32` is a natural number below `2^32`. -/
structure Partition where
  BootFlag : Byte
  StartCHS : List Byte
  Type_ : Byte
  EndCHS : List Byte
  StartLBA : Nat
  TotalSectors : Nat
  deriving DecidableEq

/-- Go `type MBR struct`. -/
structure MBR where
  BootstrapCode : List Byte
  Partitions : List Partition
  Signature : Nat
  deriving DecidableEq

/-- Go `type GPTHeader struct`. -/
structure GPTHeader where
  Signature : List Byte
  Revision : Nat
  HeaderSize : Nat
  CRC32 : Nat
  Reserved : Nat
  CurrentLBA : Nat
  BackupLBA : Nat
  FirstUsableLBA : Nat
  LastUsableLBA : Nat
  DiskGUID : List Byte
  PartitionEntryLBA : Nat
  NumberOfPartitions : Nat
  PartitionEntrySize : Nat
  PartitionEntryCRC32 : Nat
  deriving DecidableEq

/-- The zero value of `Partition`. -/
def Partition.zero : Partition :=
  { BootFlag := 0, StartCHS := [0, 0, 0], Type_ := 0, EndCHS := [0, 0, 0],
    StartLBA := 0, TotalSectors := 0 }

/-- Size in bytes of an encoded `Partition` (`binary.Size`). -/
def sizePartition : Nat := 1 + 3 + 1 + 3 + 4 + 4

/-- Size in bytes of an encoded `MBR`. -/
def sizeMBR : Nat := 446 + 4 * sizePartition + 2

/-- Size in bytes of an encoded `GPTHeader`. -/
def sizeGPTHeader : Nat := 8 + 4 + 4 + 4 + 4 + 8 + 8 + 8 + 8 + 16 + 8 + 4 + 4 + 4

/-! ## The decoder of `encoding/binary` -/

/-- Go `type decoder struct`: the buffer read from the file and the offset of
the next field. -/
structure decoder where
  buf : List Byte
  offset : Nat
  deriving DecidableEq

/-- Go slice expression `buf[lo:hi]`. -/
def slice (buf : List Byte) (lo hi : Nat) : List Byte :=
  (buf.drop lo).take (hi - lo)

/-- Go `d.uint8()`. -/
def decoder.uint8 (d : decoder) : Byte × decoder :=
  (d.buf.getD d.offset 0, { d with offset := d.offset + 1 })

/-- Go `d.uint16()`. -/
def decoder.uint16 (d : decoder) : Nat × decoder :=
  (Uint16 (slice d.buf d.offset (d.offset + 2)), { d with offset := d.offset + 2 })

/-- Go `d.uint32()`. -/
def decoder.uint32 (d : decoder) : Nat × decoder :=
  (Uint32 (slice d.buf d.offset (d.offset + 4)), { d with offset := d.offset + 4 })

/-- Go `d.uint64()`. -/
def decoder.uint64 (d : decoder) : Nat × decoder :=
  (Uint64 (slice d.buf d.offset (d.offset + 8)), { d with offset := d.offset + 8 })

/-- Go `d.value` on an array of length `l`: the elements are decoded one after
the other. -/
def decoder.array {α : Type} (elem : decoder → α × decoder) : Nat → decoder → List α × decoder
  | 0, d => ([], d)
  | l + 1, d =>
    let (x, d1) := elem d
    let (xs, d2) := decoder.array elem l d1
    (x :: xs, d2)

/-- Go `d.value` on a `Partition`: the fields in declaration order. -/
def decoder.Partition (d : decoder) : Partition × decoder :=
  let (BootFlag, d) := d.uint8
  let (StartCHS, d) := d.array decoder.uint8 3
  let (Type_, d) := d.uint8
  let (EndCHS, d) := d.array decoder.uint8 3
  let (StartLBA, d) := d.uint32
  let (TotalSectors, d) := d.uint32
  ({ BootFlag := BootFlag, StartCHS := StartCHS, Type_ := Type_, EndCHS := EndCHS,
     StartLBA := StartLBA, TotalSectors := TotalSectors }, d)

/-- Go `d.value` on an `MBR`. -/
def decoder.MBR (d : decoder) : MBR × decoder :=
  let (BootstrapCode, d) := d.array decoder.uint8 446
  let (Partitions, d) := d.array decoder.Partition 4
  let (Signature, d) := d.uint16
  ({ BootstrapCode := BootstrapCode, Partitions := Partitions, Signature := Signature }, d)

/-- Go `d.value` on a `GPTHeader`. -/
def decoder.GPTHeader (d : decoder) : GPTHeader × decoder :=
  let (Signature, d) := d.array decoder.uint8 8
  let (Revision, d) := d.uint32
  let (HeaderSize, d) := d.uint32
  let (CRC32, d) := d.uint32
  let (Reserved, d) := d.uint32
  let (CurrentLBA, d) := d.uint64
  let (BackupLBA, d) := d.uint64
  let (FirstUsableLBA, d) := d.uint64
  let (LastUsableLBA, d) := d.uint64
  let (DiskGUID, d) := d.array decoder.uint8 16
  let (PartitionEntryLBA, d) := d.uint64
  let (NumberOfPartitions, d) := d.uint32
  let (PartitionEntrySize, d) := d.uint32
  let (PartitionEntryCRC32, d) := d.uint32
  ({ Signature := Signature, Revision := Revision, HeaderSize := HeaderSize, CRC32 := CRC32,
     Reserved := Reserved, CurrentLBA := CurrentLBA, BackupLBA := BackupLBA,
     FirstUsableLBA := FirstUsableLBA, LastUsableLBA := LastUsableLBA, DiskGUID := DiskGUID,
     PartitionEntryLBA := PartitionEntryLBA, NumberOfPartitions := NumberOfPartitions,
     PartitionEntrySize := PartitionEntrySize, PartitionEntryCRC32 := PartitionEntryCRC32 }, d)

/-- Go `binary.Read(file, binary.LittleEndian, &mbr)`: the 512 bytes of the
structure are read in full, then decoded; a short read is the error and
nothing is decoded. -/
def binaryReadMBR (file : File) : Except Err MBR × File :=
  match ioReadFull file sizeMBR with
  | (.error err, file) => (.error err, file)
  | (.ok buf, file) => (.ok (decoder.MBR { buf := buf, offset := 0 }).1, file)

/-- Go `binary.Read(file, binary.LittleEndian, &gptHeader)`. -/
def binaryReadGPTHeader (file : File) : Except Err GPTHeader × File :=
  match ioReadFull file sizeGPTHeader with
  | (.error err, file) => (.error err, file)
  | (.ok buf, file) => (.ok (decoder.GPTHeader { buf := buf, offset := 0 }).1, file)

/-! ## Formatting (`fmt`) -/

/-- Go verb `%X` on an unsigned integer: upper-case hexadecimal, no padding. -/
def fmtX (n : Nat) : String :=
  String.mk ((Nat.toDigits 16 n).map Char.toUpper)

/-- Go verb `%d` on an unsigned integer. -/
def fmtd (n : Nat) : String :=
  String.mk (Nat.toDigits 10 n)

/-- Go verb `%x` on a byte array: two lower-case hexadecimal digits for each
byte, in the order of the array. -/
def fmtx : List Byte → List Char
  | [] => []
  | b :: bs => Nat.digitChar (b.val / 16) :: Nat.digitChar (b.val % 16) :: fmtx bs

/-! ## The program -/

/-- The lines of the loop `for i, p := range mbr.Partitions` of `processMBR`,
from index `i` on. -/
def printPartitions (i : Nat) : List Partition → List String
  | [] => []
  | p :: ps =>
    [ "Partition " ++ fmtd (i + 1) ++ ":",
      "\tBoot Flag: 0x" ++ fmtX p.BootFlag.val,
      "\tType: 0x" ++ fmtX p.Type_.val,
      "\tStart LBA: " ++ fmtd p.StartLBA,
      "\tTotal Sectors: " ++ fmtd p.TotalSectors ] ++ printPartitions (i + 1) ps

/-- Go `func processMBR(file *os.File)`: the lines it prints and the file
after it. -/
def processMBR (file : File) : List String × File :=
  match file.Seek 0 with
  | .error err => (["Error seeking file: " ++ err.Error], file)
  | .ok file =>
    match binaryReadMBR file with
    | (.error err, file) => (["Error reading MBR: " ++ err.Error], file)
    | (.ok mbr, file) =>
      ("MBR Partition Table:" :: printPartitions 0 mbr.Partitions, file)

/-- Go `func processGPT(file *os.File)`: the lines it prints and the file
after it. -/
def processGPT (file : File) : List String × File :=
  match file.Seek 512 with
  | .error err => (["Error seeking to GPT header: " ++ err.Error], file)
  | .ok file =>
    match binaryReadGPTHeader file with
    | (.error err, file) => (["Error reading GPT header: " ++ err.Error], file)
    | (.ok gptHeader, file) =>
      ([ "GPT Header Information:",
         "\tDisk GUID: " ++ String.mk (fmtx gptHeader.DiskGUID),
         "\tPartition Entry LBA: " ++ fmtd gptHeader.PartitionEntryLBA,
         "\tNumber Of Partitions: " ++ fmtd gptHeader.NumberOfPartitions ], file)

/-- What a run leaves behind: the lines on standard output and the exit
status of the process. -/
structure Outcome where
  stdout : List String
  exitCode : Nat
  deriving DecidableEq

/-- Go `func main()`, with `os.Args` and the file system as parameters.
`os.Exit(1)` ends the run at once; falling off the end of `main` is exit
status 0. -/
def main (Args : List String) (fs : FileSystem) : Outcome :=
  if Args.length < 2 then
    { stdout := ["Usage: go run main.go <image file>"], exitCode := 1 }
  else
    let fileName := Args.getD 1 ""
    match osOpen fs fileName with
    | .error err => { stdout := ["Error opening file: " ++ err.Error], exitCode := 1 }
    | .ok file =>
      match binaryReadMBR file with
      | (.error err, _) =>
        { stdout := ["Error reading initial sector: " ++ err.Error], exitCode := 1 }
      | (.ok mbr, file) =>
        if mbr.Signature = 0xAA55 then
          if (mbr.Partitions.getD 0 Partition.zero).Type_ = 0xEE then
            { stdout := "Detected GPT Disk. Processing GPT..." :: (processGPT file).1,
              exitCode := 0 }
          else
            { stdout := "Detected MBR Disk. Processing MBR..." :: (processMBR file).1,
              exitCode := 0 }
        else
          { stdout := ["Unknown disk format or missing valid boot signature."], exitCode := 0 }

/-! ## The components of the specification, as parts of the program -/

/-- The three outcomes of the classification in `main`. -/
inductive DiskLayoutVariant where
  | LegacyMBR
  | ProtectedGPT
  | Unrecognized
  deriving DecidableEq

/-- FormatDetector: the classification `main` makes of the opened file, the
read of the first sector and the branch on `mbr.Signature` and on
`mbr.Partitions[0].Type`.  The read error is what `main` exits on. -/
def detect (file : File) : Except Err DiskLayoutVariant :=
  match binaryReadMBR file with
  | (.error err, _) => .error err
  | (.ok mbr, _) =>
    if mbr.Signature = 0xAA55 then
      if (mbr.Partitions.getD 0 Partition.zero).Type_ = 0xEE then .ok .ProtectedGPT
      else .ok .LegacyMBR
    else .ok .Unrecognized

/-- TableDecoder, legacy table: the seek and the read of `processMBR`. -/
def decodeLegacy (file : File) : Except Err MBR :=
  match file.Seek 0 with
  | .error err => .error err
  | .ok file => (binaryReadMBR file).1

/-- TableDecoder, GPT header: the seek and the read of `processGPT`. -/
def decodeGPT (file : File) : Except Err GPTHeader :=
  match file.Seek 512 with
  | .error err => .error err
  | .ok file => (binaryReadGPTHeader file).1

/-- The image file as `main` holds it after `os.Open`: cursor at offset 0. -/
def openImage (fileName : String) (data : List Byte) : File :=
  { name := fileName, data := data, pos := 0 }

/-! ## The bytes a run reads -/

/-- The number of bytes a read delivered: how far it moved the cursor from
`before` to `after`. -/
def bytesRead (before after : File) : Nat :=
  after.pos - before.pos

/-- The bytes that `processMBR` reads: those of its `binary.Read`, made after
the seek. -/
def processMBR_bytesRead (file : File) : Nat :=
  match file.Seek 0 with
  | .error _ => 0
  | .ok file => bytesRead file (binaryReadMBR file).2

/-- The bytes that `processGPT` reads: those of its `binary.Read`, made after
the seek. -/
def processGPT_bytesRead (file : File) : Nat :=
  match file.Seek 512 with
  | .error _ => 0
  | .ok file => bytesRead file (binaryReadGPTHeader file).2

/-- The bytes that one run of `main` reads from the image, all its reads
counted: the read of the first sector, then the read of `processGPT` or of
`processMBR` on the branch that `main` takes. -/
def main_bytesRead (Args : List String) (fs : FileSystem) : Nat :=
  if Args.length < 2 then 0
  else
    match osOpen fs (Args.getD 1 "") with
    | .error _ => 0
    | .ok file =>
      match binaryReadMBR file with
      | (.error _, after) => bytesRead file after
      | (.ok mbr, after) =>
        bytesRead file after +
          (if mbr.Signature = 0xAA55 then
            if (mbr.Partitions.getD 0 Partition.zero).Type_ = 0xEE then
              processGPT_bytesRead after
            else processMBR_bytesRead after
          else 0)

/-! ## Reading fields at absolute offsets -/

/-- The little-endian unsigned integer of the `n` bytes of `data` from offset
`off` on. -/
def leAt (data : List Byte) (off : Nat) : Nat → Nat
  | 0 => 0
  | n + 1 => (data.getD off 0).val + 2 ^ 8 * leAt data (off + 1) n

/-- The `n` bytes of `data` from offset `off` on, in file order. -/
def bytesAt (data : List Byte) (off : Nat) : Nat → List Byte
  | 0 => []
  | n + 1 => data.getD off 0 :: bytesAt data (off + 1) n

/-- The partition entry laid out in the 16 bytes of `data` from offset `off`
on: bootFlag is byte 0, startCHS bytes 1-3, type byte 4, endCHS bytes 5-7,
startLBA the little-endian value of bytes 8-11, totalSectors that of bytes
12-15. -/
def entryAt (data : List Byte) (off : Nat) : Partition :=
  { BootFlag := data.getD off 0
    StartCHS := [data.getD (off + 1) 0, data.getD (off + 2) 0, data.getD (off + 3) 0]
    Type_ := data.getD (off + 4) 0
    EndCHS := [data.getD (off + 5) 0, data.getD (off + 6) 0, data.getD (off + 7) 0]
    StartLBA := (data.getD (off + 8) 0).val + 2 ^ 8 * (data.getD (off + 9) 0).val
      + 2 ^ 16 * (data.getD (off + 10) 0).val + 2 ^ 24 * (data.getD (off + 11) 0).val
    TotalSectors := (data.getD (off + 12) 0).val + 2 ^ 8 * (data.getD (off + 13) 0).val
      + 2 ^ 16 * (data.getD (off + 14) 0).val + 2 ^ 24 * (data.getD (off + 15) 0).val }

/-- The legacy table laid out in the first 512 bytes of `data`. -/
def mbrAt (data : List Byte) : MBR :=
  { BootstrapCode := bytesAt data 0 446
    Partitions := [entryAt data 446, entryAt data 462, entryAt data 478, entryAt data 494]
    Signature := leAt data 510 2 }

/-- The GPT header laid out in the 92 bytes of `data` from offset `off` on. -/
def gptHeaderAt (data : List Byte) (off : Nat) : GPTHeader :=
  { Signature := bytesAt data off 8
    Revision := leAt data (off + 8) 4
    HeaderSize := leAt data (off + 12) 4
    CRC32 := leAt data (off + 16) 4
    Reserved := leAt data (off + 20) 4
    CurrentLBA := leAt data (off + 24) 8
    BackupLBA := leAt data (off + 32) 8
    FirstUsableLBA := leAt data (off + 40) 8
    LastUsableLBA := leAt data (off + 48) 8
    DiskGUID := bytesAt data (off + 56) 16
    PartitionEntryLBA := leAt data (off + 72) 8
    NumberOfPartitions := leAt data (off + 80) 4
    PartitionEntrySize := leAt data (off + 84) 4
    PartitionEntryCRC32 := leAt data (off + 88) 4 }

/-! ## Encoding, following the layout of the specification -/

/-- The `n` bytes of `v` in little-endian order, least significant byte first. -/
def putLE (v : Nat) : Nat → List Byte
  | 0 => []
  | n + 1 => ⟨v % 256, Nat.mod_lt v (by decide)⟩ :: putLE (v / 256) n

/-- A LegacyPartitionEntry in its 16 bytes: bootFlag(1), startCHS(3), type(1),
endCHS(3), startLBA(4, little-endian), totalSectors(4, little-endian). -/
def encodePartition (e : Partition) : List Byte :=
  [e.BootFlag] ++ e.StartCHS ++ [e.Type_] ++ e.EndCHS ++ putLE e.StartLBA 4
    ++ putLE e.TotalSectors 4

/-- A GPTHeader in its 92 bytes: signature(8), revision(4), headerSize(4),
headerCRC32(4), reserved(4), currentLBA(8), backupLBA(8), firstUsableLBA(8),
lastUsableLBA(8), diskGUID(16), partitionEntryLBA(8), numberOfPartitions(4),
partitionEntrySize(4), partitionEntryArrayCRC32(4), integers little-endian. -/
def encodeGPTHeader (h : GPTHeader) : List Byte :=
  h.Signature ++ putLE h.Revision 4 ++ putLE h.HeaderSize 4 ++ putLE h.CRC32 4
    ++ putLE h.Reserved 4 ++ putLE h.CurrentLBA 8 ++ putLE h.BackupLBA 8
    ++ putLE h.FirstUsableLBA 8 ++ putLE h.LastUsableLBA 8 ++ h.DiskGUID
    ++ putLE h.PartitionEntryLBA 8 ++ putLE h.NumberOfPartitions 4
    ++ putLE h.PartitionEntrySize 4 ++ putLE h.PartitionEntryCRC32 4

/-- The buffer `sector` with the bytes from offset `off` on replaced by `bytes`. -/
def placeAt (sector : List Byte) (off : Nat) (bytes : List Byte) : List Byte :=
  sector.take off ++ bytes ++ sector.drop (off + bytes.length)

/-- The values a `Partition` can hold: arrays of three bytes, 32-bit integers. -/
def Partition.WellFormed (e : Partition) : Prop :=
  e.StartCHS.length = 3 ∧ e.EndCHS.length = 3 ∧ e.StartLBA < 2 ^ 32
    ∧ e.TotalSectors < 2 ^ 32

/-- The values a `GPTHeader` can hold: arrays of 8 and 16 bytes, 32-bit and
64-bit integers. -/
def GPTHeader.WellFormed (h : GPTHeader) : Prop :=
  h.Signature.length = 8 ∧ h.Revision < 2 ^ 32 ∧ h.HeaderSize < 2 ^ 32 ∧ h.CRC32 < 2 ^ 32
    ∧ h.Reserved < 2 ^ 32 ∧ h.CurrentLBA < 2 ^ 64 ∧ h.BackupLBA < 2 ^ 64
    ∧ h.FirstUsableLBA < 2 ^ 64 ∧ h.LastUsableLBA < 2 ^ 64 ∧ h.DiskGUID.length = 16
    ∧ h.PartitionEntryLBA < 2 ^ 64 ∧ h.NumberOfPartitions < 2 ^ 32
    ∧ h.PartitionEntrySize < 2 ^ 32 ∧ h.PartitionEntryCRC32 < 2 ^ 32

/-! ## Example images -/

/-- A 512-byte sector: zero bootstrap code, slot 0 an active entry of type
`type0` with startLBA 2048 and totalSectors 204800, slot 1 an entry of type
`type1`, slots 2 and 3 zero, and the two signature bytes `sig0`, `sig1`. -/
def exampleSector (type0 type1 sig0 sig1 : Byte) : List Byte :=
  List.replicate 446 0
    ++ [0x80, 0x20, 0x21, 0x00, type0, 0xFE, 0xFF, 0xFF, 0x00, 0x08, 0x00, 0x00,
        0x00, 0x20, 0x03, 0x00]
    ++ [0x00, 0x00, 0x00, 0x00, type1, 0x00, 0x00, 0x00, 0x00, 0x00, 0x00, 0x00,
        0x00, 0x00, 0x00, 0x00]
    ++ List.replicate 32 0
    ++ [sig0, sig1]

/-- The bytes of the ASCII string "EFI PART". -/
def efiPart : List Byte := [0x45, 0x46, 0x49, 0x20, 0x50, 0x41, 0x52, 0x54]

/-- A GPT header as a formatting tool writes it on a small disk: 128 entries
of 128 bytes, the entry array at LBA 2. -/
def exampleHeader : GPTHeader :=
  { Signature := efiPart, Revision := 0x00010000, HeaderSize := 92, CRC32 := 0x1A2B3C4D,
    Reserved := 0, CurrentLBA := 1, BackupLBA := 409599, FirstUsableLBA := 34,
    LastUsableLBA := 409566,
    DiskGUID := [0x10, 0x32, 0x54, 0x76, 0x98, 0xBA, 0xDC, 0xFE, 0x01, 0x23, 0x45, 0x67,
      0x89, 0xAB, 0xCD, 0xEF],
    PartitionEntryLBA := 2, NumberOfPartitions := 128, PartitionEntrySize := 128,
    PartitionEntryCRC32 := 0x5E6F7A8B }

/-- The sector of the scenario of the specification: 512 zero bytes except
the type byte of partition slot 0, 0xEE, and the last two bytes, 0x55, 0xAA. -/
def scenarioSector : List Byte :=
  List.replicate 450 0 ++ [0xEE] ++ List.replicate 59 0 ++ [0x55, 0xAA]

/-- The header of the scenario of the specification: 92 bytes, all zero
except the signature "EFI PART" and the four bytes `count` of the
numberOfPartitions field, at offset 80 of the header. -/
def scenarioHeader (count : List Byte) : List Byte :=
  efiPart ++ List.replicate 72 0 ++ count ++ List.replicate 8 0

/-- The image of the scenario: the sector, then the header. -/
def scenarioImage (count : List Byte) : File :=
  openImage "disk.img" (scenarioSector ++ scenarioHeader count)

/-- The header value that the scenario header encodes when its
numberOfPartitions field holds the four little-endian bytes of `count`. -/
def scenarioValue (count : Nat) : GPTHeader :=
  { Signature := efiPart, Revision := 0, HeaderSize := 0, CRC32 := 0, Reserved := 0,
    CurrentLBA := 0, BackupLBA := 0, FirstUsableLBA := 0, LastUsableLBA := 0,
    DiskGUID := List.replicate 16 0, PartitionEntryLBA := 0, NumberOfPartitions := count,
    PartitionEntrySize := 0, PartitionEntryCRC32 := 0 }

/-- The entry of the scenario of the specification: active, type 0x07,
startLBA 2048, totalSectors 204800. -/
def exampleEntry : Partition :=
  { BootFlag := 0x80, StartCHS := [0x20, 0x21, 0x00], Type_ := 0x07,
    EndCHS := [0xFE, 0xFF, 0xFF], StartLBA := 2048, TotalSectors := 204800 }

/-- A 512-byte sector with values the formats give no meaning to: boot flag
0x7F in slot 0 and 0x01 in slot 1, types 0xFF and 0xEE, and the signature
bytes 0x34, 0x12. -/
def oddSector : List Byte :=
  List.replicate 446 0xC3
    ++ [0x7F, 0xFF, 0xFF, 0xFF, 0xFF, 0xFF, 0xFF, 0xFF, 0xFF, 0xFF, 0xFF, 0xFF,
        0xFF, 0xFF, 0xFF, 0xFF]
    ++ [0x01, 0x00, 0x00, 0x00, 0xEE, 0x00, 0x00, 0x00, 0x01, 0x00, 0x00, 0x00,
        0x00, 0x00, 0x00, 0x00]
    ++ List.replicate 32 0
    ++ [0x34, 0x12]

/-- A 92-byte header region that does not start with "EFI PART": the bytes of
"NOT A GPT HEADER" and then 76 bytes 0x11. -/
def oddHeader : List Byte :=
  [0x4E, 0x4F, 0x54, 0x20, 0x41, 0x20, 0x47, 0x50, 0x54, 0x20, 0x48, 0x45, 0x41, 0x44,
    0x45, 0x52] ++ List.replicate 76 0x11

/-- The sixteen lower-case hexadecimal digits, in order of value. -/
def hexLower : List Char :=
  "0123456789abcdef".toList

/-! ## Lemmas on the decoder -/

theorem getD_take_of_lt (l : List Byte) (n i : Nat) (h : i < n) :
    (l.take n).getD i 0 = l.getD i 0 := by
  simp [List.getD_eq_getElem?_getD, List.getElem?_take, h]

theorem getD_drop_add (l : List Byte) (n i : Nat) :
    (l.drop n).getD i 0 = l.getD (n + i) 0 := by
  simp [List.getD_eq_getElem?_getD, List.getElem?_drop]

theorem getD_slice (buf : List Byte) (lo hi i : Nat) (h : i < hi - lo) :
    (slice buf lo hi).getD i 0 = buf.getD (lo + i) 0 := by
  unfold slice
  rw [getD_take_of_lt _ _ _ h, getD_drop_add]

theorem uint16_eq (buf : List Byte) (off : Nat) :
    decoder.uint16 { buf := buf, offset := off }
      = (leAt buf off 2, { buf := buf, offset := off + 2 }) := by
  simp only [decoder.uint16, Uint16, leAt, getD_slice buf off (off + 2) 0 (by omega), getD_slice buf off (off + 2) 1 (by omega), Prod.mk.injEq, and_true]
  simp only [Nat.add_assoc, Nat.add_zero, Nat.reduceAdd]
  omega

theorem uint32_eq (buf : List Byte) (off : Nat) :
    decoder.uint32 { buf := buf, offset := off }
      = (leAt buf off 4, { buf := buf, offset := off + 4 }) := by
  simp only [decoder.uint32, Uint32, leAt, getD_slice buf off (off + 4) 0 (by omega), getD_slice buf off (off + 4) 1 (by omega), getD_slice buf off (off + 4) 2 (by omega), getD_slice buf off (off + 4) 3 (by omega), Prod.mk.injEq, and_true]
  simp only [Nat.add_assoc, Nat.add_zero, Nat.reduceAdd]
  omega

theorem uint64_eq (buf : List Byte) (off : Nat) :
    decoder.uint64 { buf := buf, offset := off }
      = (leAt buf off 8, { buf := buf, offset := off + 8 }) := by
  simp only [decoder.uint64, Uint64, leAt, getD_slice buf off (off + 8) 0 (by omega), getD_slice buf off (off + 8) 1 (by omega), getD_slice buf off (off + 8) 2 (by omega), getD_slice buf off (off + 8) 3 (by omega), getD_slice buf off (off + 8) 4 (by omega), getD_slice buf off (off + 8) 5 (by omega), getD_slice buf off (off + 8) 6 (by omega), getD_slice buf off (off + 8) 7 (by omega), Prod.mk.injEq, and_true]
  simp only [Nat.add_assoc, Nat.add_zero, Nat.reduceAdd]
  omega

theorem array_uint8_eq (buf : List Byte) (n off : Nat) :
    decoder.array decoder.uint8 n { buf := buf, offset := off }
      = (bytesAt buf off n, { buf := buf, offset := off + n }) := by
  induction n generalizing off with
  | zero => simp [decoder.array, bytesAt]
  | succ n ih =>
    simp only [decoder.array, decoder.uint8, ih, bytesAt, Prod.mk.injEq, true_and,
      decoder.mk.injEq]
    omega

theorem leAt_four (data : List Byte) (off : Nat) :
    leAt data off 4 = (data.getD off 0).val + 2 ^ 8 * (data.getD (off + 1) 0).val
      + 2 ^ 16 * (data.getD (off + 2) 0).val + 2 ^ 24 * (data.getD (off + 3) 0).val := by
  simp only [leAt, Nat.add_assoc, Nat.reduceAdd]
  omega

theorem Partition_eq (buf : List Byte) (off : Nat) :
    decoder.Partition { buf := buf, offset := off }
      = (entryAt buf off, { buf := buf, offset := off + 16 }) := by
  simp only [decoder.Partition, decoder.uint8, array_uint8_eq, uint32_eq, entryAt, bytesAt,
    leAt_four, Nat.add_assoc, Nat.reduceAdd]

theorem array_Partition_eq (buf : List Byte) (off : Nat) :
    decoder.array decoder.Partition 4 { buf := buf, offset := off }
      = ([entryAt buf off, entryAt buf (off + 16), entryAt buf (off + 32),
          entryAt buf (off + 48)], { buf := buf, offset := off + 64 }) := by
  simp only [decoder.array, Partition_eq, Nat.add_assoc, Nat.reduceAdd]

theorem MBR_eq (buf : List Byte) :
    (decoder.MBR { buf := buf, offset := 0 }).1 = mbrAt buf := by
  unfold decoder.MBR
  rw [array_uint8_eq]
  simp only []
  rw [array_Partition_eq]
  simp only []
  rw [uint16_eq]
  rfl

theorem GPTHeader_eq (buf : List Byte) :
    (decoder.GPTHeader { buf := buf, offset := 0 }).1 = gptHeaderAt buf 0 := by
  simp only [decoder.GPTHeader, array_uint8_eq, uint32_eq, uint64_eq, gptHeaderAt,
    Nat.zero_add, Nat.reduceAdd]

/-! ## Lemmas on windows of the file -/

theorem leAt_congr (l m : List Byte) (a b n : Nat)
    (h : ∀ i, i < n → l.getD (a + i) 0 = m.getD (b + i) 0) : leAt l a n = leAt m b n := by
  induction n generalizing a b with
  | zero => rfl
  | succ n ih =>
    have h0 := h 0 (Nat.succ_pos n)
    simp only [Nat.add_zero] at h0
    simp only [leAt, h0]
    rw [ih (a + 1) (b + 1)]
    intro i hi
    have := h (i + 1) (by omega)
    simpa [Nat.add_assoc, Nat.add_comm 1 i] using this

theorem bytesAt_congr (l m : List Byte) (a b n : Nat)
    (h : ∀ i, i < n → l.getD (a + i) 0 = m.getD (b + i) 0) : bytesAt l a n = bytesAt m b n := by
  induction n generalizing a b with
  | zero => rfl
  | succ n ih =>
    have h0 := h 0 (Nat.succ_pos n)
    simp only [Nat.add_zero] at h0
    simp only [bytesAt, h0]
    rw [ih (a + 1) (b + 1)]
    intro i hi
    have := h (i + 1) (by omega)
    simpa [Nat.add_assoc, Nat.add_comm 1 i] using this

theorem entryAt_congr (l m : List Byte) (a b : Nat)
    (h : ∀ i, i < 16 → l.getD (a + i) 0 = m.getD (b + i) 0) : entryAt l a = entryAt m b := by
  have e0 := h 0 (by decide)
  rw [Nat.add_zero, Nat.add_zero] at e0
  simp only [entryAt, e0, h 1 (by decide), h 2 (by decide), h 3 (by decide), h 4 (by decide),
    h 5 (by decide), h 6 (by decide), h 7 (by decide), h 8 (by decide), h 9 (by decide),
    h 10 (by decide), h 11 (by decide), h 12 (by decide), h 13 (by decide), h 14 (by decide),
    h 15 (by decide)]

/-- The window of `n` bytes that a read at cursor `p` returns, seen from the
file: offset `i` of the window is offset `p + i` of the file. -/
theorem getD_window (data : List Byte) (p n i : Nat) (h : i < n) :
    ((data.drop p).take n).getD i 0 = data.getD (p + i) 0 := by
  rw [getD_take_of_lt _ _ _ h, getD_drop_add]

theorem mbrAt_window (data : List Byte) :
    mbrAt ((data.drop 0).take 512) = mbrAt data := by
  have hb : ∀ a n, a + n ≤ 512 →
      bytesAt ((data.drop 0).take 512) a n = bytesAt data a n := fun a n h =>
    bytesAt_congr _ _ _ _ _ fun i hi => by
      rw [getD_window _ _ _ _ (by omega)]; simp
  have hl : ∀ a n, a + n ≤ 512 →
      leAt ((data.drop 0).take 512) a n = leAt data a n := fun a n h =>
    leAt_congr _ _ _ _ _ fun i hi => by
      rw [getD_window _ _ _ _ (by omega)]; simp
  have he : ∀ a, a + 16 ≤ 512 →
      entryAt ((data.drop 0).take 512) a = entryAt data a := fun a h =>
    entryAt_congr _ _ _ _ fun i hi => by
      rw [getD_window _ _ _ _ (by omega)]; simp
  simp only [mbrAt, hb 0 446 (by decide), hl 510 2 (by decide), he 446 (by decide),
    he 462 (by decide), he 478 (by decide), he 494 (by decide)]

theorem gptHeaderAt_window (data : List Byte) :
    gptHeaderAt ((data.drop 512).take 92) 0 = gptHeaderAt data 512 := by
  have hb : ∀ a n, a + n ≤ 92 →
      bytesAt ((data.drop 512).take 92) a n = bytesAt data (512 + a) n := fun a n h =>
    bytesAt_congr _ _ _ _ _ fun i hi => by
      rw [getD_window _ _ _ _ (by omega), Nat.add_assoc]
  have hl : ∀ a n, a + n ≤ 92 →
      leAt ((data.drop 512).take 92) a n = leAt data (512 + a) n := fun a n h =>
    leAt_congr _ _ _ _ _ fun i hi => by
      rw [getD_window _ _ _ _ (by omega), Nat.add_assoc]
  simp only [gptHeaderAt, Nat.zero_add]
  simp only [hb 0 8 (by decide), hb 56 16 (by decide), hl 8 4 (by decide),
    hl 12 4 (by decide), hl 16 4 (by decide), hl 20 4 (by decide), hl 24 8 (by decide),
    hl 32 8 (by decide), hl 40 8 (by decide), hl 48 8 (by decide), hl 72 8 (by decide),
    hl 80 4 (by decide), hl 84 4 (by decide), hl 88 4 (by decide), Nat.reduceAdd]

/-! ## Lemmas on the reads of the program -/

theorem ioReadFull_ok (file : File) (n : Nat) (h : file.pos + n ≤ file.data.length) :
    ioReadFull file n
      = (.ok ((file.data.drop file.pos).take n), { file with pos := file.pos + n }) := by
  unfold ioReadFull
  simp only [List.length_drop]
  rw [if_pos (by omega)]

theorem ioReadFull_short (file : File) (n : Nat) (hn : 0 < n)
    (h : file.data.length < file.pos + n) :
    (ioReadFull file n).1 = .error (shortReadErr (file.data.length - file.pos)) := by
  unfold ioReadFull shortReadErr
  simp only [List.length_drop]
  rw [if_neg (by omega)]
  split <;> rfl

theorem binaryReadMBR_ok (fileName : String) (data : List Byte) (h : 512 ≤ data.length) :
    binaryReadMBR { name := fileName, data := data, pos := 0 }
      = (.ok (mbrAt data), { name := fileName, data := data, pos := 512 }) := by
  unfold binaryReadMBR
  rw [show sizeMBR = 512 from rfl, ioReadFull_ok _ _ (by simpa using h)]
  simp only [MBR_eq, mbrAt_window, Nat.zero_add]

theorem binaryReadMBR_short (fileName : String) (data : List Byte) (h : data.length < 512) :
    ∃ file, binaryReadMBR { name := fileName, data := data, pos := 0 }
      = (.error (shortReadErr data.length), file) := by
  have h1 := ioReadFull_short { name := fileName, data := data, pos := 0 } 512
    (by decide) (by simpa using h)
  unfold binaryReadMBR
  rw [show sizeMBR = 512 from rfl]
  revert h1
  generalize ioReadFull { name := fileName, data := data, pos := 0 } 512 = r
  rcases r with ⟨r1, r2⟩
  intro h1
  simp only at h1
  subst h1
  exact ⟨r2, rfl⟩

theorem binaryReadGPTHeader_ok (fileName : String) (data : List Byte)
    (h : 604 ≤ data.length) :
    binaryReadGPTHeader { name := fileName, data := data, pos := 512 }
      = (.ok (gptHeaderAt data 512), { name := fileName, data := data, pos := 604 }) := by
  unfold binaryReadGPTHeader
  rw [show sizeGPTHeader = 92 from rfl, ioReadFull_ok _ _ (by simpa using h)]
  simp only [GPTHeader_eq, gptHeaderAt_window, Nat.reduceAdd]

theorem binaryReadGPTHeader_short (fileName : String) (data : List Byte)
    (h : data.length < 604) :
    ∃ file, binaryReadGPTHeader { name := fileName, data := data, pos := 512 }
      = (.error (shortReadErr (data.length - 512)), file) := by
  have h1 := ioReadFull_short { name := fileName, data := data, pos := 512 } 92
    (by decide) (by simpa using h)
  unfold binaryReadGPTHeader
  rw [show sizeGPTHeader = 92 from rfl]
  revert h1
  generalize ioReadFull { name := fileName, data := data, pos := 512 } 92 = r
  rcases r with ⟨r1, r2⟩
  intro h1
  simp only at h1
  subst h1
  exact ⟨r2, rfl⟩

theorem Seek_zero (file : File) : file.Seek 0 = .ok { file with pos := 0 } := rfl

theorem Seek_512 (file : File) : file.Seek 512 = .ok { file with pos := 512 } := rfl

theorem decodeLegacy_ok (file : File) (h : 512 ≤ file.data.length) :
    decodeLegacy file = .ok (mbrAt file.data) := by
  unfold decodeLegacy
  rw [Seek_zero]
  simp only [binaryReadMBR_ok file.name file.data h]

theorem decodeGPT_ok (file : File) (h : 604 ≤ file.data.length) :
    decodeGPT file = .ok (gptHeaderAt file.data 512) := by
  unfold decodeGPT
  rw [Seek_512]
  simp only [binaryReadGPTHeader_ok file.name file.data h]

theorem detect_ok (fileName : String) (data : List Byte) (h : 512 ≤ data.length) :
    detect (openImage fileName data)
      = if leAt data 510 2 = 0xAA55 then
          if data.getD 450 0 = 0xEE then .ok .ProtectedGPT else .ok .LegacyMBR
        else .ok .Unrecognized := by
  unfold detect openImage
  rw [binaryReadMBR_ok fileName data h]
  rfl

theorem leAt_two (data : List Byte) (off : Nat) :
    leAt data off 2 = (data.getD off 0).val + 256 * (data.getD (off + 1) 0).val := by
  simp [leAt]

theorem getD_of_getElem? (data : List Byte) (i : Nat) (b : Byte) (h : data[i]? = some b) :
    data.getD i 0 = b := by
  simp [List.getD_eq_getElem?_getD, h]

theorem getElem?_eq_some_getD (data : List Byte) (i : Nat) (h : i < data.length) :
    data[i]? = some (data.getD i 0) := by
  simp [List.getD_eq_getElem?_getD, List.getElem?_eq_getElem h]

theorem bytesAt_eq_take_drop (data : List Byte) (off n : Nat) (h : off + n ≤ data.length) :
    bytesAt data off n = (data.drop off).take n := by
  induction n generalizing off with
  | zero => simp [bytesAt]
  | succ n ih =>
    have hlt : off < data.length := by omega
    rw [bytesAt, ih (off + 1) (by omega), List.drop_eq_getElem_cons hlt, List.take_succ_cons]
    simp [List.getD_eq_getElem?_getD, List.getElem?_eq_getElem hlt]

theorem processMBR_ok (file : File) (h : 512 ≤ file.data.length) :
    processMBR file
      = ("MBR Partition Table:" :: printPartitions 0 (mbrAt file.data).Partitions,
          { file with pos := 512 }) := by
  unfold processMBR
  rw [Seek_zero]
  simp only [binaryReadMBR_ok file.name file.data h]

theorem processGPT_ok (file : File) (h : 604 ≤ file.data.length) :
    processGPT file
      = ([ "GPT Header Information:",
           "\tDisk GUID: " ++ String.mk (fmtx (gptHeaderAt file.data 512).DiskGUID),
           "\tPartition Entry LBA: " ++ fmtd (gptHeaderAt file.data 512).PartitionEntryLBA,
           "\tNumber Of Partitions: " ++ fmtd (gptHeaderAt file.data 512).NumberOfPartitions ],
          { file with pos := 604 }) := by
  unfold processGPT
  rw [Seek_512]
  simp only [binaryReadGPTHeader_ok file.name file.data h]

theorem decodeLegacy_short (file : File) (h : file.data.length < 512) :
    decodeLegacy file = .error (shortReadErr file.data.length) := by
  obtain ⟨f, hf⟩ := binaryReadMBR_short file.name file.data h
  unfold decodeLegacy
  rw [Seek_zero]
  simp only [hf]

theorem decodeGPT_short (file : File) (h : file.data.length < 604) :
    decodeGPT file = .error (shortReadErr (file.data.length - 512)) := by
  obtain ⟨f, hf⟩ := binaryReadGPTHeader_short file.name file.data h
  unfold decodeGPT
  rw [Seek_512]
  simp only [hf]

theorem processMBR_short (file : File) (h : file.data.length < 512) :
    (processMBR file).1
      = ["Error reading MBR: " ++ (shortReadErr file.data.length).Error] := by
  obtain ⟨f, hf⟩ := binaryReadMBR_short file.name file.data h
  unfold processMBR
  rw [Seek_zero]
  simp only [hf]

theorem processGPT_short (file : File) (h : file.data.length < 604) :
    (processGPT file).1
      = ["Error reading GPT header: " ++ (shortReadErr (file.data.length - 512)).Error] := by
  obtain ⟨f, hf⟩ := binaryReadGPTHeader_short file.name file.data h
  unfold processGPT
  rw [Seek_512]
  simp only [hf]

theorem detect_short (fileName : String) (data : List Byte) (h : data.length < 512) :
    detect (openImage fileName data) = .error (shortReadErr data.length) := by
  obtain ⟨f, hf⟩ := binaryReadMBR_short fileName data h
  unfold detect openImage
  rw [hf]

/-- The run on an image that was opened, by the result of the classification. -/
theorem main_opened (Args : List String) (fs : FileSystem) (data : List Byte)
    (hargs : 2 ≤ Args.length) (hopen : fs (Args.getD 1 "") = .ok data) :
    main Args fs
      = match detect (openImage (Args.getD 1 "") data) with
        | .error err =>
          { stdout := ["Error reading initial sector: " ++ err.Error], exitCode := 1 }
        | .ok .ProtectedGPT =>
          { stdout := "Detected GPT Disk. Processing GPT..."
              :: (processGPT { name := Args.getD 1 "", data := data, pos := 512 }).1,
            exitCode := 0 }
        | .ok .LegacyMBR =>
          { stdout := "Detected MBR Disk. Processing MBR..."
              :: (processMBR { name := Args.getD 1 "", data := data, pos := 512 }).1,
            exitCode := 0 }
        | .ok .Unrecognized =>
          { stdout := ["Unknown disk format or missing valid boot signature."],
            exitCode := 0 } := by
  unfold main
  rw [if_neg (by omega)]
  simp only [osOpen, hopen]
  by_cases hlen : 512 ≤ data.length
  · rw [detect_ok _ _ hlen, binaryReadMBR_ok _ _ hlen]
    simp only []
    by_cases hs : leAt data 510 2 = 0xAA55
    · have hs2 : (mbrAt data).Signature = 0xAA55 := hs
      by_cases ht : data.getD 450 0 = 0xEE
      · have ht2 : ((mbrAt data).Partitions.getD 0 Partition.zero).Type_ = 0xEE := ht
        rw [if_pos hs, if_pos ht, if_pos hs2, if_pos ht2]
      · have ht2 : ¬ ((mbrAt data).Partitions.getD 0 Partition.zero).Type_ = 0xEE := ht
        rw [if_pos hs, if_neg ht, if_pos hs2, if_neg ht2]
    · have hs2 : ¬ (mbrAt data).Signature = 0xAA55 := hs
      rw [if_neg hs, if_neg hs2]
  · obtain ⟨f, hf⟩ := binaryReadMBR_short (Args.getD 1 "") data (by omega)
    rw [detect_short _ _ (by omega), hf]

/-! ## Lemmas on encoding -/

theorem length_putLE (v n : Nat) : (putLE v n).length = n := by
  induction n generalizing v with
  | zero => rfl
  | succ n ih => simp [putLE, ih]

theorem leAt_putLE (v n : Nat) (h : v < 256 ^ n) : leAt (putLE v n) 0 n = v := by
  induction n generalizing v with
  | zero => simp at h; simp [leAt, h]
  | succ n ih =>
    have hv : v / 256 < 256 ^ n := by
      rw [Nat.div_lt_iff_lt_mul (by decide)]
      rw [Nat.pow_succ] at h
      exact h
    have hshift : leAt (putLE v (n + 1)) (0 + 1) n = leAt (putLE (v / 256) n) 0 n :=
      leAt_congr _ _ _ _ _ fun i _ => by
        simp [putLE, Nat.add_comm 1 i]
    rw [leAt, hshift, ih _ hv]
    simp only [putLE, List.getD_cons_zero]
    omega

theorem bytesAt_self (l : List Byte) : bytesAt l 0 l.length = l := by
  rw [bytesAt_eq_take_drop _ _ _ (by omega)]
  simp

theorem getD_mid (pre mid post : List Byte) (i : Nat) (h : i < mid.length) :
    (pre ++ mid ++ post).getD (pre.length + i) 0 = mid.getD i 0 := by
  rw [List.append_assoc, List.getD_append_right _ _ _ _ (by omega),
    List.getD_append _ _ _ _ (by omega)]
  congr 1
  omega

theorem length_encodePartition (e : Partition) (h : e.WellFormed) :
    (encodePartition e).length = 16 := by
  obtain ⟨h1, h2, _, _⟩ := h
  simp [encodePartition, length_putLE, h1, h2]

theorem entryAt_encodePartition (e : Partition) (h : e.WellFormed) :
    entryAt (encodePartition e) 0 = e := by
  obtain ⟨BootFlag, StartCHS, Type_, EndCHS, StartLBA, TotalSectors⟩ := e
  obtain ⟨h1, h2, h3, h4⟩ := h
  simp only at h1 h2 h3 h4
  match StartCHS, h1 with
  | [a, b, c], _ =>
    match EndCHS, h2 with
    | [d, f, g], _ =>
      simp only [entryAt, encodePartition, putLE, List.cons_append, List.nil_append,
        List.getD_cons_zero, List.getD_cons_succ, Nat.zero_add, Nat.reduceAdd,
        Partition.mk.injEq, true_and]
      constructor <;> omega

theorem entryAt_placed (e : Partition) (h : e.WellFormed) (pre post : List Byte) :
    entryAt (pre ++ encodePartition e ++ post) pre.length = e := by
  refine (entryAt_congr _ (encodePartition e) _ 0 fun i hi => ?_).trans
    (entryAt_encodePartition e h)
  rw [getD_mid _ _ _ _ (by rw [length_encodePartition e h]; exact hi), Nat.zero_add]

theorem leAt_append_left (l m : List Byte) (a n : Nat) (h : a + n ≤ l.length) :
    leAt (l ++ m) a n = leAt l a n :=
  leAt_congr _ _ _ _ _ fun i hi => List.getD_append _ _ _ _ (by omega)

theorem bytesAt_append_left (l m : List Byte) (a n : Nat) (h : a + n ≤ l.length) :
    bytesAt (l ++ m) a n = bytesAt l a n :=
  bytesAt_congr _ _ _ _ _ fun i hi => List.getD_append _ _ _ _ (by omega)

theorem leAt_append_right (l m : List Byte) (a n : Nat) (h : a = l.length) :
    leAt (l ++ m) a n = leAt m 0 n :=
  leAt_congr _ _ _ _ _ fun i _ => by
    rw [List.getD_append_right _ _ _ _ (by omega)]
    congr 1
    omega

theorem bytesAt_append_right (l m : List Byte) (a n : Nat) (h : a = l.length) :
    bytesAt (l ++ m) a n = bytesAt m 0 n :=
  bytesAt_congr _ _ _ _ _ fun i _ => by
    rw [List.getD_append_right _ _ _ _ (by omega)]
    congr 1
    omega

theorem leAt_field4 (pre : List Byte) (v a : Nat) (ha : a = pre.length) (hv : v < 2 ^ 32) :
    leAt (pre ++ putLE v 4) a 4 = v := by
  rw [leAt_append_right _ _ _ _ ha, leAt_putLE v 4 hv]

theorem leAt_field8 (pre : List Byte) (v a : Nat) (ha : a = pre.length) (hv : v < 2 ^ 64) :
    leAt (pre ++ putLE v 8) a 8 = v := by
  rw [leAt_append_right _ _ _ _ ha, leAt_putLE v 8 hv]

theorem bytesAt_field (pre l : List Byte) (a n : Nat) (ha : a = pre.length)
    (hn : n = l.length) : bytesAt (pre ++ l) a n = l := by
  rw [bytesAt_append_right _ _ _ _ ha, hn, bytesAt_self]

theorem length_encodeGPTHeader (h : GPTHeader) (hwf : h.WellFormed) :
    (encodeGPTHeader h).length = 92 := by
  obtain ⟨h1, _, _, _, _, _, _, _, _, h10, _⟩ := hwf
  simp [encodeGPTHeader, length_putLE, h1, h10]

theorem gptHeaderAt_placed (h : GPTHeader) (hwf : h.WellFormed) (sector rest : List Byte)
    (hsec : sector.length = 512) :
    gptHeaderAt (sector ++ encodeGPTHeader h ++ rest) 512 = h := by
  obtain ⟨Signature, Revision, HeaderSize, CRC32, Reserved, CurrentLBA, BackupLBA,
    FirstUsableLBA, LastUsableLBA, DiskGUID, PartitionEntryLBA, NumberOfPartitions,
    PartitionEntrySize, PartitionEntryCRC32⟩ := h
  obtain ⟨h1, h2, h3, h4, h5, h6, h7, h8, h9, h10, h11, h12, h13, h14⟩ := hwf
  simp only at h1 h2 h3 h4 h5 h6 h7 h8 h9 h10 h11 h12 h13 h14
  simp only [gptHeaderAt, encodeGPTHeader, ← List.append_assoc, Nat.reduceAdd,
    GPTHeader.mk.injEq]
  refine ⟨?_, ?_, ?_, ?_, ?_, ?_, ?_, ?_, ?_, ?_, ?_, ?_, ?_, ?_⟩
  · repeat
      refine (bytesAt_append_left _ _ _ _
        (by simp only [List.length_append, length_putLE, hsec, h1, h10]; omega)).trans ?_
    exact bytesAt_field _ _ _ _ (by simp [length_putLE, hsec, h1, h10]) (by simp [h1, h10])
  · repeat
      refine (leAt_append_left _ _ _ _
        (by simp only [List.length_append, length_putLE, hsec, h1, h10]; omega)).trans ?_
    exact leAt_field4 _ _ _ (by simp [length_putLE, hsec, h1, h10]) h2
  · repeat
      refine (leAt_append_left _ _ _ _
        (by simp only [List.length_append, length_putLE, hsec, h1, h10]; omega)).trans ?_
    exact leAt_field4 _ _ _ (by simp [length_putLE, hsec, h1, h10]) h3
  · repeat
      refine (leAt_append_left _ _ _ _
        (by simp only [List.length_append, length_putLE, hsec, h1, h10]; omega)).trans ?_
    exact leAt_field4 _ _ _ (by simp [length_putLE, hsec, h1, h10]) h4
  · repeat
      refine (leAt_append_left _ _ _ _
        (by simp only [List.length_append, length_putLE, hsec, h1, h10]; omega)).trans ?_
    exact leAt_field4 _ _ _ (by simp [length_putLE, hsec, h1, h10]) h5
  · repeat
      refine (leAt_append_left _ _ _ _
        (by simp only [List.length_append, length_putLE, hsec, h1, h10]; omega)).trans ?_
    exact leAt_field8 _ _ _ (by simp [length_putLE, hsec, h1, h10]) h6
  · repeat
      refine (leAt_append_left _ _ _ _
        (by simp only [List.length_append, length_putLE, hsec, h1, h10]; omega)).trans ?_
    exact leAt_field8 _ _ _ (by simp [length_putLE, hsec, h1, h10]) h7
  · repeat
      refine (leAt_append_left _ _ _ _
        (by simp only [List.length_append, length_putLE, hsec, h1, h10]; omega)).trans ?_
    exact leAt_field8 _ _ _ (by simp [length_putLE, hsec, h1, h10]) h8
  · repeat
      refine (leAt_append_left _ _ _ _
        (by simp only [List.length_append, length_putLE, hsec, h1, h10]; omega)).trans ?_
    exact leAt_field8 _ _ _ (by simp [length_putLE, hsec, h1, h10]) h9
  · repeat
      refine (bytesAt_append_left _ _ _ _
        (by simp only [List.length_append, length_putLE, hsec, h1, h10]; omega)).trans ?_
    exact bytesAt_field _ _ _ _ (by simp [length_putLE, hsec, h1, h10]) (by simp [h1, h10])
  · repeat
      refine (leAt_append_left _ _ _ _
        (by simp only [List.length_append, length_putLE, hsec, h1, h10]; omega)).trans ?_
    exact leAt_field8 _ _ _ (by simp [length_putLE, hsec, h1, h10]) h11
  · repeat
      refine (leAt_append_left _ _ _ _
        (by simp only [List.length_append, length_putLE, hsec, h1, h10]; omega)).trans ?_
    exact leAt_field4 _ _ _ (by simp [length_putLE, hsec, h1, h10]) h12
  · repeat
      refine (leAt_append_left _ _ _ _
        (by simp only [List.length_append, length_putLE, hsec, h1, h10]; omega)).trans ?_
    exact leAt_field4 _ _ _ (by simp [length_putLE, hsec, h1, h10]) h13
  · repeat
      refine (leAt_append_left _ _ _ _
        (by simp only [List.length_append, length_putLE, hsec, h1, h10]; omega)).trans ?_
    exact leAt_field4 _ _ _ (by simp [length_putLE, hsec, h1, h10]) h14

theorem detect_protective (fileName : String) (data : List Byte) (hlen : 512 ≤ data.length)
    (h510 : data.getD 510 0 = 0x55) (h511 : data.getD 511 0 = 0xAA)
    (h450 : data.getD 450 0 = 0xEE) :
    detect (openImage fileName data) = .ok .ProtectedGPT := by
  rw [detect_ok fileName data hlen, leAt_two, h510, h511, h450]
  rfl

/-! ## Detection -/

/-- C1: a source of at least 512 bytes with bytes 510-511 equal to 0x55, 0xAA
and with byte 450 (the type of partition slot 0) equal to 0xEE is classified
ProtectedGPT, whatever all its other bytes are. -/
theorem detect_ProtectedGPT (fileName : String) (data : List Byte)
    (hlen : 512 ≤ data.length) (h510 : data[510]? = some 0x55)
    (h511 : data[511]? = some 0xAA) (h450 : data[450]? = some 0xEE) :
    detect (openImage fileName data) = .ok .ProtectedGPT := by
  rw [detect_ok fileName data hlen, leAt_two, getD_of_getElem? _ _ _ h510,
    getD_of_getElem? _ _ _ h511, getD_of_getElem? _ _ _ h450]
  rfl

/-- C2: a source of at least 512 bytes whose boot signature (the little-endian
value of bytes 510-511) is 0xAA55 and whose byte 450 (the type of partition
slot 0) is not 0xEE is classified LegacyMBR, whatever the types of the
entries 1-3 are. -/
theorem detect_LegacyMBR (fileName : String) (data : List Byte)
    (hlen : 512 ≤ data.length)
    (hsig : (data.getD 510 0).val + 256 * (data.getD 511 0).val = 0xAA55)
    (h450 : data[450]? ≠ some 0xEE) :
    detect (openImage fileName data) = .ok .LegacyMBR := by
  rw [detect_ok fileName data hlen, leAt_two, if_pos hsig, if_neg]
  intro h
  exact h450 (h ▸ getElem?_eq_some_getD data 450 (by omega))

/-- C3: a source of at least 512 bytes whose bytes 510 and 511 are not 0x55
followed by 0xAA is classified Unrecognized, a result and not an error,
whatever its byte 450 is. -/
theorem detect_Unrecognized (fileName : String) (data : List Byte)
    (hlen : 512 ≤ data.length)
    (hsig : ¬ (data[510]? = some 0x55 ∧ data[511]? = some 0xAA)) :
    detect (openImage fileName data) = .ok .Unrecognized := by
  rw [detect_ok fileName data hlen, leAt_two, if_neg]
  intro h
  simp only [Nat.reduceAdd] at h
  apply hsig
  have h0 := (data.getD 510 0).isLt
  have h1 := (data.getD 511 0).isLt
  have e0 : data.getD 510 0 = 0x55 := Fin.ext (by show _ = 85; omega)
  have e1 : data.getD 511 0 = 0xAA := Fin.ext (by show _ = 170; omega)
  exact ⟨e0 ▸ getElem?_eq_some_getD data 510 (by omega),
    e1 ▸ getElem?_eq_some_getD data 511 (by omega)⟩

theorem detect_ProtectedGPT_witness :
    detect (openImage "disk.img" (exampleSector 0xEE 0x07 0x55 0xAA)) = .ok .ProtectedGPT :=
  detect_ProtectedGPT "disk.img" (exampleSector 0xEE 0x07 0x55 0xAA)
    (by decide) (by decide) (by decide) (by decide)

theorem detect_LegacyMBR_witness :
    detect (openImage "disk.img" (exampleSector 0x07 0xEE 0x55 0xAA)) = .ok .LegacyMBR :=
  detect_LegacyMBR "disk.img" (exampleSector 0x07 0xEE 0x55 0xAA)
    (by decide) (by decide) (by decide)

theorem detect_Unrecognized_witness :
    detect (openImage "disk.img" (exampleSector 0xEE 0x00 0x55 0xAB)) = .ok .Unrecognized :=
  detect_Unrecognized "disk.img" (exampleSector 0xEE 0x00 0x55 0xAB)
    (by decide) (by decide)

/-! ## Reading the legacy table -/

/-- C4: on a source shorter than 512 bytes, the empty one included, detection
and decodeLegacy both fail with the error of the short read and give no
table: `processMBR` prints the error line alone and the run ends on the
error of the first read with exit status 1. -/
theorem short_source_ReadError (file : File) (h : file.data.length < 512) :
    detect (openImage file.name file.data) = .error (shortReadErr file.data.length)
    ∧ decodeLegacy file = .error (shortReadErr file.data.length)
    ∧ (processMBR file).1
        = ["Error reading MBR: " ++ (shortReadErr file.data.length).Error]
    ∧ ∀ (Args : List String) (fs : FileSystem), 2 ≤ Args.length →
        fs (Args.getD 1 "") = .ok file.data →
        main Args fs
          = { stdout := ["Error reading initial sector: "
                ++ (shortReadErr file.data.length).Error],
              exitCode := 1 } := by
  refine ⟨detect_short _ _ h, decodeLegacy_short file h, processMBR_short file h, ?_⟩
  intro Args fs hargs hopen
  rw [main_opened Args fs file.data hargs hopen, detect_short _ _ h]

theorem short_source_ReadError_witness :
    detect (openImage "disk.img" []) = .error .EOF
    ∧ decodeLegacy { name := "disk.img", data := [0x55, 0xAA], pos := 0 }
        = .error .ErrUnexpectedEOF :=
  ⟨(short_source_ReadError { name := "disk.img", data := [], pos := 0 } (by decide)).1,
    (short_source_ReadError { name := "disk.img", data := [0x55, 0xAA], pos := 0 }
      (by decide)).2.1⟩

/-- C5: on a source of at least 512 bytes decodeLegacy returns the bootstrap
code as bytes 0-445, the four partition entries in slot order, entry `i` laid
out in the 16 bytes from offset 446+16*i on, none left out, and the boot
signature as the little-endian value of bytes 510-511; `processMBR` prints
all four and leaves the cursor at 446+64+2 = 512. -/
theorem decodeLegacy_layout (file : File) (h : 512 ≤ file.data.length) :
    decodeLegacy file = .ok
      { BootstrapCode := file.data.take 446
        Partitions := [entryAt file.data 446, entryAt file.data (446 + 16 * 1),
          entryAt file.data (446 + 16 * 2), entryAt file.data (446 + 16 * 3)]
        Signature := (file.data.getD 510 0).val + 2 ^ 8 * (file.data.getD 511 0).val }
    ∧ processMBR file
        = ("MBR Partition Table:" :: printPartitions 0
            [entryAt file.data 446, entryAt file.data (446 + 16 * 1),
              entryAt file.data (446 + 16 * 2), entryAt file.data (446 + 16 * 3)],
          { file with pos := 446 + 64 + 2 })
    ∧ sizeMBR = 446 + 64 + 2 ∧ sizePartition = 16 := by
  refine ⟨?_, processMBR_ok file h, rfl, rfl⟩
  rw [decodeLegacy_ok file h, mbrAt, bytesAt_eq_take_drop _ _ _ (by omega), leAt_two]
  rfl

theorem decodeLegacy_layout_witness :
    decodeLegacy (openImage "disk.img" (exampleSector 0x07 0x00 0x55 0xAA)) = .ok
      { BootstrapCode := List.replicate 446 0
        Partitions :=
          [{ BootFlag := 0x80, StartCHS := [0x20, 0x21, 0x00], Type_ := 0x07,
             EndCHS := [0xFE, 0xFF, 0xFF], StartLBA := 2048, TotalSectors := 204800 },
           Partition.zero, Partition.zero, Partition.zero]
        Signature := 0xAA55 } :=
  (decodeLegacy_layout (openImage "disk.img" (exampleSector 0x07 0x00 0x55 0xAA))
    (by decide)).1.trans (congrArg Except.ok (by decide))

/-! ## Round trips -/

/-- C6: a legacy partition entry `e`, encoded into 16 bytes in the layout of
the specification, decodes to `e` again: by the decoder run on the 16 bytes,
and by decodeLegacy on any source whose first 512 bytes hold the 16 bytes in
slot `i`, at offset 446+16*i, for each of the four slots. -/
theorem Partition_roundtrip (e : Partition) (he : e.WellFormed) :
    (encodePartition e).length = 16
    ∧ (decoder.Partition { buf := encodePartition e, offset := 0 }).1 = e
    ∧ ∀ (sector rest : List Byte) (i : Nat) (fileName : String) (pos : Nat),
        sector.length = 512 → i < 4 →
        ∃ mbr, decodeLegacy
            { name := fileName,
              data := placeAt sector (446 + 16 * i) (encodePartition e) ++ rest,
              pos := pos } = .ok mbr
          ∧ mbr.Partitions[i]? = some e := by
  refine ⟨length_encodePartition e he, ?_, ?_⟩
  · rw [Partition_eq]
    exact entryAt_encodePartition e he
  · intro sector rest i fileName pos hsec hi
    have hlen := length_encodePartition e he
    have hpre : (sector.take (446 + 16 * i)).length = 446 + 16 * i := by
      rw [List.length_take, hsec]
      omega
    have hdata : placeAt sector (446 + 16 * i) (encodePartition e) ++ rest
        = sector.take (446 + 16 * i) ++ encodePartition e
          ++ (sector.drop (446 + 16 * i + (encodePartition e).length) ++ rest) := by
      simp [placeAt, List.append_assoc]
    have hentry : entryAt (placeAt sector (446 + 16 * i) (encodePartition e) ++ rest)
        (446 + 16 * i) = e := by
      rw [hdata]
      have := entryAt_placed e he (sector.take (446 + 16 * i))
        (sector.drop (446 + 16 * i + (encodePartition e).length) ++ rest)
      rw [hpre] at this
      exact this
    have hlong : 512 ≤ (placeAt sector (446 + 16 * i) (encodePartition e) ++ rest).length := by
      rw [hdata]
      simp only [List.length_append, List.length_drop, hpre, hlen, hsec]
      omega
    refine ⟨_, decodeLegacy_ok _ hlong, ?_⟩
    simp only [mbrAt]
    interval_cases i
    · exact congrArg some hentry
    · exact congrArg some hentry
    · exact congrArg some hentry
    · exact congrArg some hentry

theorem Partition_roundtrip_witness :
    (decoder.Partition { buf := encodePartition exampleEntry, offset := 0 }).1 = exampleEntry
    ∧ ∃ mbr, decodeLegacy
          { name := "disk.img",
            data := placeAt (exampleSector 0x00 0x00 0x55 0xAA) (446 + 16 * 2)
              (encodePartition exampleEntry) ++ [],
            pos := 0 } = .ok mbr
        ∧ mbr.Partitions[2]? = some exampleEntry :=
  ⟨(Partition_roundtrip exampleEntry ⟨rfl, rfl, by decide, by decide⟩).2.1,
    (Partition_roundtrip exampleEntry ⟨rfl, rfl, by decide, by decide⟩).2.2
      (exampleSector 0x00 0x00 0x55 0xAA) [] 2 "disk.img" 0 (by decide) (by decide)⟩

/-- C7: a GPT header `h`, encoded into 92 bytes in the field order of the
specification with little-endian integers and placed at offset 512 after any
512-byte sector, is what decodeGPT returns, whatever follows the header; when
the sector is a protective MBR the source is classified ProtectedGPT. -/
theorem GPTHeader_roundtrip (h : GPTHeader) (hwf : h.WellFormed) (sector rest : List Byte)
    (hsec : sector.length = 512) (fileName : String) (pos : Nat) :
    (encodeGPTHeader h).length = 92
    ∧ decodeGPT { name := fileName, data := sector ++ encodeGPTHeader h ++ rest, pos := pos }
        = .ok h
    ∧ (sector[510]? = some 0x55 → sector[511]? = some 0xAA → sector[450]? = some 0xEE →
        detect (openImage fileName (sector ++ encodeGPTHeader h ++ rest)) = .ok .ProtectedGPT) := by
  have hlen := length_encodeGPTHeader h hwf
  refine ⟨hlen, ?_, ?_⟩
  · rw [decodeGPT_ok _ (by simp only [List.length_append, hsec, hlen]; omega)]
    exact congrArg Except.ok (gptHeaderAt_placed h hwf sector rest hsec)
  · intro h510 h511 h450
    have hget : ∀ i, i < 512 → (sector ++ encodeGPTHeader h ++ rest)[i]? = sector[i]? := by
      intro i hi
      rw [List.append_assoc, List.getElem?_append_left (by omega)]
    exact detect_protective fileName _
      (by simp only [List.length_append, hsec]; omega)
      (getD_of_getElem? _ _ _ ((hget 510 (by decide)).trans h510))
      (getD_of_getElem? _ _ _ ((hget 511 (by decide)).trans h511))
      (getD_of_getElem? _ _ _ ((hget 450 (by decide)).trans h450))

theorem GPTHeader_roundtrip_witness :
    decodeGPT (openImage "disk.img" (scenarioSector ++ encodeGPTHeader exampleHeader ++ []))
        = .ok exampleHeader
    ∧ detect (openImage "disk.img" (scenarioSector ++ encodeGPTHeader exampleHeader ++ []))
        = .ok .ProtectedGPT :=
  ⟨(GPTHeader_roundtrip exampleHeader
      ⟨rfl, by decide, by decide, by decide, by decide, by decide, by decide, by decide,
        by decide, rfl, by decide, by decide, by decide, by decide⟩
      scenarioSector [] (by decide) "disk.img" 0).2.1,
    (GPTHeader_roundtrip exampleHeader
      ⟨rfl, by decide, by decide, by decide, by decide, by decide, by decide, by decide,
        by decide, rfl, by decide, by decide, by decide, by decide⟩
      scenarioSector [] (by decide) "disk.img" 0).2.2 (by decide) (by decide) (by decide)⟩

/-! ## The scenario of the specification -/

theorem scenarioHeader_eq (count : Nat) :
    scenarioHeader (putLE count 4) = encodeGPTHeader (scenarioValue count) := by
  simp [scenarioHeader, encodeGPTHeader, scenarioValue, putLE, efiPart, List.replicate]

theorem scenario_detect (count : List Byte) :
    detect (scenarioImage count) = .ok .ProtectedGPT := by
  have hget : ∀ i, i < 512 → (scenarioSector ++ scenarioHeader count)[i]? = scenarioSector[i]? :=
    fun i hi => List.getElem?_append_left (by
      rw [show scenarioSector.length = 512 by decide]; exact hi)
  exact detect_protective "disk.img" _
    (by rw [List.length_append, show scenarioSector.length = 512 by decide]; omega)
    (getD_of_getElem? _ _ _ ((hget 510 (by decide)).trans (by decide)))
    (getD_of_getElem? _ _ _ ((hget 511 (by decide)).trans (by decide)))
    (getD_of_getElem? _ _ _ ((hget 450 (by decide)).trans (by decide)))

theorem scenario_decode (count : Nat) (hc : count < 2 ^ 32) :
    decodeGPT (scenarioImage (putLE count 4)) = .ok (scenarioValue count)
    ∧ (processGPT (scenarioImage (putLE count 4))).1
        = [ "GPT Header Information:",
            "\tDisk GUID: 00000000000000000000000000000000",
            "\tPartition Entry LBA: 0",
            "\tNumber Of Partitions: " ++ fmtd count ] := by
  have hwf : (scenarioValue count).WellFormed := by
    refine ⟨rfl, ?_, ?_, ?_, ?_, ?_, ?_, ?_, ?_, rfl, ?_, hc, ?_, ?_⟩ <;>
      exact Nat.pow_pos (by decide)
  have hdata : (scenarioImage (putLE count 4)).data
      = scenarioSector ++ encodeGPTHeader (scenarioValue count) ++ [] := by
    simp only [scenarioImage, openImage, scenarioHeader_eq, List.append_nil]
  have hlen : 604 ≤ (scenarioImage (putLE count 4)).data.length := by
    rw [hdata]
    simp only [List.length_append, length_encodeGPTHeader _ hwf,
      show scenarioSector.length = 512 by decide]
    decide
  have hval : gptHeaderAt (scenarioImage (putLE count 4)).data 512 = scenarioValue count := by
    rw [hdata]
    exact gptHeaderAt_placed _ hwf _ _ (by decide)
  refine ⟨by rw [decodeGPT_ok _ hlen, hval], ?_⟩
  rw [processGPT_ok _ hlen, hval]
  simp only [scenarioValue, List.cons.injEq, true_and, and_true]
  exact ⟨by decide, by decide⟩

/-- C8, as the claim states it: with numberOfPartitions = 0x80000000 written
as four little-endian bytes, that is 0x00, 0x00, 0x00, 0x80, the image is
classified ProtectedGPT but the decoded header holds and reports
2147483648, not 128. -/
theorem scenario_0x80000000_not_128 :
    putLE 0x80000000 4 = [0x00, 0x00, 0x00, 0x80]
    ∧ detect (scenarioImage (putLE 0x80000000 4)) = .ok .ProtectedGPT
    ∧ (∃ h, decodeGPT (scenarioImage (putLE 0x80000000 4)) = .ok h
        ∧ h.NumberOfPartitions = 2147483648)
    ∧ (processGPT (scenarioImage (putLE 0x80000000 4))).1.getLast?
        = some "\tNumber Of Partitions: 2147483648"
    ∧ ¬ ∃ h, decodeGPT (scenarioImage (putLE 0x80000000 4)) = .ok h
        ∧ h.NumberOfPartitions = 128 := by
  have hd := scenario_decode 0x80000000 (by decide)
  refine ⟨by decide, scenario_detect _, ⟨_, hd.1, rfl⟩, ?_, ?_⟩
  · rw [hd.2]
    decide
  · rintro ⟨h, h1, h2⟩
    rw [hd.1] at h1
    have h3 := Except.ok.inj h1
    rw [← h3] at h2
    exact absurd h2 (by decide)

/-- C8, amended: the image of the scenario is classified ProtectedGPT, and
the header decoded by decodeGPT holds and reports as numberOfPartitions the
value whose four little-endian bytes the field holds: 128 for the bytes
0x80, 0x00, 0x00, 0x00. -/
theorem scenario_numberOfPartitions (count : Nat) (hc : count < 2 ^ 32) :
    detect (scenarioImage (putLE count 4)) = .ok .ProtectedGPT
    ∧ (∃ h, decodeGPT (scenarioImage (putLE count 4)) = .ok h
        ∧ h.NumberOfPartitions = count)
    ∧ (processGPT (scenarioImage (putLE count 4))).1.getLast?
        = some ("\tNumber Of Partitions: " ++ fmtd count) := by
  have hd := scenario_decode count hc
  refine ⟨scenario_detect _, ⟨_, hd.1, rfl⟩, ?_⟩
  rw [hd.2]
  rfl

theorem scenario_numberOfPartitions_witness :
    putLE 128 4 = [0x80, 0x00, 0x00, 0x00]
    ∧ detect (scenarioImage [0x80, 0x00, 0x00, 0x00]) = .ok .ProtectedGPT
    ∧ (∃ h, decodeGPT (scenarioImage [0x80, 0x00, 0x00, 0x00]) = .ok h
        ∧ h.NumberOfPartitions = 128)
    ∧ (processGPT (scenarioImage [0x80, 0x00, 0x00, 0x00])).1.getLast?
        = some "\tNumber Of Partitions: 128" :=
  ⟨by decide, scenario_numberOfPartitions 128 (by decide)⟩

/-! ## Reading the GPT header -/

/-- C9: decodeGPT reads the 92 bytes at offset 512 and nothing else.  On a
source shorter than 604 bytes it fails with the error of the short read,
`io.EOF` when the source has 512 bytes or fewer, and `processGPT` prints
the error line alone; on a source of 604 bytes or more it returns the header
decoded from bytes 512-603 and leaves the cursor at 604. -/
theorem decodeGPT_length (file : File) :
    (file.data.length < 604 →
      decodeGPT file = .error (shortReadErr (file.data.length - 512))
      ∧ (processGPT file).1
          = ["Error reading GPT header: " ++ (shortReadErr (file.data.length - 512)).Error])
    ∧ (604 ≤ file.data.length →
      decodeGPT file
          = .ok (decoder.GPTHeader { buf := (file.data.drop 512).take 92, offset := 0 }).1
      ∧ (processGPT file).1.length = 4
      ∧ (processGPT file).2.pos = 512 + 92) := by
  refine ⟨fun h => ⟨decodeGPT_short file h, processGPT_short file h⟩, fun h => ⟨?_, ?_, ?_⟩⟩
  · rw [decodeGPT_ok file h, GPTHeader_eq, gptHeaderAt_window]
  · rw [processGPT_ok file h]
    rfl
  · rw [processGPT_ok file h]

theorem decodeGPT_length_witness :
    decodeGPT (openImage "disk.img" scenarioSector) = .error .EOF
    ∧ decodeGPT (openImage "disk.img" (scenarioSector ++ [0x45, 0x46])) = .error .ErrUnexpectedEOF
    ∧ decodeGPT (scenarioImage [0x80, 0x00, 0x00, 0x00]) = .ok (scenarioValue 128) :=
  ⟨((decodeGPT_length (openImage "disk.img" scenarioSector)).1 (by decide)).1,
    ((decodeGPT_length (openImage "disk.img" (scenarioSector ++ [0x45, 0x46]))).1
      (by decide)).1,
    (((decodeGPT_length (scenarioImage [0x80, 0x00, 0x00, 0x00])).2 (by decide)).1).trans
      (congrArg Except.ok (by decide))⟩

/-! ## The exit status -/

/-- C10: the run ends with a non-zero exit status exactly when the image
argument is missing, or the image cannot be opened, or the image has fewer
than the 512 bytes of the first read; the status is then 1, and 0 in every
other case, as when the image is classified Unrecognized. -/
theorem main_exitCode (Args : List String) (fs : FileSystem) :
    ((main Args fs).exitCode ≠ 0 ↔
      Args.length < 2 ∨ (∃ err, fs (Args.getD 1 "") = .error err)
        ∨ (∃ data, fs (Args.getD 1 "") = .ok data ∧ data.length < 512))
    ∧ ((main Args fs).exitCode = 0 ∨ (main Args fs).exitCode = 1)
    ∧ (∀ data, 2 ≤ Args.length → fs (Args.getD 1 "") = .ok data →
        detect (openImage (Args.getD 1 "") data) = .ok .Unrecognized →
        (main Args fs).exitCode = 0) := by
  by_cases hargs : Args.length < 2
  · have h1 : (main Args fs).exitCode = 1 := by
      unfold main
      rw [if_pos hargs]
    rw [h1]
    exact ⟨⟨fun _ => Or.inl hargs, fun _ => by decide⟩, Or.inr rfl, fun _ h => by omega⟩
  · cases hopen : fs (Args.getD 1 "") with
    | error err =>
      have h1 : (main Args fs).exitCode = 1 := by
        unfold main
        rw [if_neg hargs]
        simp only [osOpen, hopen]
      rw [h1]
      exact ⟨⟨fun _ => Or.inr (Or.inl ⟨err, rfl⟩), fun _ => by decide⟩, Or.inr rfl,
        fun _ _ h => by cases h⟩
    | ok data =>
      have hm := main_opened Args fs data (by omega) hopen
      by_cases hlen : 512 ≤ data.length
      · have h0 : (main Args fs).exitCode = 0 := by
          rw [hm, detect_ok _ _ hlen]
          split_ifs <;> rfl
        rw [h0]
        refine ⟨⟨fun h => absurd rfl h, ?_⟩, Or.inl rfl, fun _ _ _ _ => rfl⟩
        rintro (h | ⟨err, h⟩ | ⟨d, h, hd⟩)
        · exact absurd h hargs
        · cases h
        · cases h
          omega
      · have h1 : (main Args fs).exitCode = 1 := by
          rw [hm, detect_short _ _ (by omega)]
        rw [h1]
        refine ⟨⟨fun _ => Or.inr (Or.inr ⟨data, rfl, by omega⟩), fun _ => by decide⟩,
          Or.inr rfl, ?_⟩
        intro d _ hd hdet
        cases hd
        rw [detect_short _ _ (by omega)] at hdet
        cases hdet

theorem main_exitCode_witness :
    (main ["partitionTableLocater"] (fun _ => .ok scenarioSector)).exitCode = 1
    ∧ (main ["partitionTableLocater", "disk.img"]
        (fun _ => .error (.PathError "open" "disk.img" "no such file or directory"))).exitCode = 1
    ∧ (main ["partitionTableLocater", "disk.img"] (fun _ => .ok [0x55, 0xAA])).exitCode = 1
    ∧ (main ["partitionTableLocater", "disk.img"] (fun _ => .ok scenarioSector)).exitCode = 0
    ∧ (main ["partitionTableLocater", "disk.img"]
        (fun _ => .ok (exampleSector 0xEE 0x00 0x55 0xAB))).exitCode = 0 := by
  refine ⟨?_, ?_, ?_, ?_, ?_⟩
  · have h := (main_exitCode ["partitionTableLocater"] (fun _ => .ok scenarioSector)).1.2
      (Or.inl (by decide))
    have h2 := (main_exitCode ["partitionTableLocater"] (fun _ => .ok scenarioSector)).2.1
    omega
  · decide
  · decide
  · decide
  · exact (main_exitCode ["partitionTableLocater", "disk.img"]
      (fun _ => .ok (exampleSector 0xEE 0x00 0x55 0xAB))).2.2 _ (by decide) rfl
      (by rw [detect_ok _ _ (by decide)]; rfl)

/-! ## Totality of the decoders -/

/-- C11: once the source has 512 bytes, detection and decodeLegacy succeed
whatever the bytes are: detection gives a variant, decodeLegacy gives the
table laid out in the bytes, `processMBR` prints the table and not an error
line; no boot flag, partition type or signature value makes them fail. -/
theorem decodeLegacy_total (file : File) (h : 512 ≤ file.data.length) :
    (∃ v, detect (openImage file.name file.data) = .ok v)
    ∧ decodeLegacy file = .ok (mbrAt file.data)
    ∧ (processMBR file).1
        = "MBR Partition Table:" :: printPartitions 0 (mbrAt file.data).Partitions := by
  refine ⟨?_, decodeLegacy_ok file h, by rw [processMBR_ok file h]⟩
  rw [detect_ok _ _ h]
  split_ifs
  · exact ⟨_, rfl⟩
  · exact ⟨_, rfl⟩
  · exact ⟨_, rfl⟩

theorem decodeLegacy_total_witness :
    (∃ v, detect (openImage "disk.img" oddSector) = .ok v)
    ∧ (∃ mbr, decodeLegacy (openImage "disk.img" oddSector) = .ok mbr
        ∧ (mbr.Partitions.map fun p => p.BootFlag) = [0x7F, 0x01, 0x00, 0x00]
        ∧ mbr.Signature = 0x1234) :=
  ⟨(decodeLegacy_total (openImage "disk.img" oddSector) (by decide)).1,
    _, (decodeLegacy_total (openImage "disk.img" oddSector) (by decide)).2.1,
    by decide, by decide⟩

/-- C12: decodeGPT does not look at the signature of the header: on every
source of at least 604 bytes it succeeds, and the signature field of the
header it returns is bytes 512-519 of the source, whatever they are; when
sector 0 is a protective MBR the run prints the header and no error line. -/
theorem decodeGPT_signature_verbatim (file : File) (h : 604 ≤ file.data.length) :
    (∃ hdr, decodeGPT file = .ok hdr ∧ hdr.Signature = (file.data.drop 512).take 8)
    ∧ ∀ (Args : List String) (fs : FileSystem), 2 ≤ Args.length →
        fs (Args.getD 1 "") = .ok file.data →
        detect (openImage (Args.getD 1 "") file.data) = .ok .ProtectedGPT →
        main Args fs
          = { stdout :=
                [ "Detected GPT Disk. Processing GPT...",
                  "GPT Header Information:",
                  "\tDisk GUID: " ++ String.mk (fmtx (gptHeaderAt file.data 512).DiskGUID),
                  "\tPartition Entry LBA: "
                    ++ fmtd (gptHeaderAt file.data 512).PartitionEntryLBA,
                  "\tNumber Of Partitions: "
                    ++ fmtd (gptHeaderAt file.data 512).NumberOfPartitions ],
              exitCode := 0 } := by
  refine ⟨⟨_, decodeGPT_ok file h, ?_⟩, ?_⟩
  · exact bytesAt_eq_take_drop _ _ _ (by omega)
  · intro Args fs hargs hopen hdet
    rw [main_opened Args fs file.data hargs hopen, hdet]
    simp only []
    rw [processGPT_ok { name := Args.getD 1 "", data := file.data, pos := 512 } h]

theorem decodeGPT_signature_verbatim_witness :
    ∃ hdr, decodeGPT (openImage "disk.img" (scenarioSector ++ oddHeader)) = .ok hdr
      ∧ hdr.Signature = [0x4E, 0x4F, 0x54, 0x20, 0x41, 0x20, 0x47, 0x50]
      ∧ hdr.Signature ≠ efiPart :=
  match (decodeGPT_signature_verbatim (openImage "disk.img" (scenarioSector ++ oddHeader))
      (by decide)).1 with
  | ⟨hdr, h1, h2⟩ => ⟨hdr, h1, h2.trans (by decide), by rw [h2]; decide⟩

/-! ## The report on an unrecognized image -/

/-- C13: when the image is classified Unrecognized the run prints exactly one
line, the explanation, and ends with exit status 0: no line of `processMBR`
or of `processGPT`, their error lines included, is printed. -/
theorem main_Unrecognized (Args : List String) (fs : FileSystem) (data : List Byte)
    (hargs : 2 ≤ Args.length) (hopen : fs (Args.getD 1 "") = .ok data)
    (hdet : detect (openImage (Args.getD 1 "") data) = .ok .Unrecognized) :
    main Args fs
      = { stdout := ["Unknown disk format or missing valid boot signature."],
          exitCode := 0 } := by
  rw [main_opened Args fs data hargs hopen, hdet]

theorem main_Unrecognized_witness :
    main ["partitionTableLocater", "disk.img"] (fun _ => .ok (oddSector ++ oddHeader))
      = { stdout := ["Unknown disk format or missing valid boot signature."],
          exitCode := 0 } :=
  main_Unrecognized ["partitionTableLocater", "disk.img"]
    (fun _ => .ok (oddSector ++ oddHeader)) (oddSector ++ oddHeader) (by decide) rfl
    (by rw [detect_ok _ _ (by decide)]; rfl)

/-! ## The bytes a run reads -/

theorem ioReadFull_pos (file : File) (n : Nat) :
    (ioReadFull file n).2.pos = file.pos + min n (file.data.length - file.pos) := by
  unfold ioReadFull
  simp only [List.length_drop]
  split_ifs with h1 h2
  · simp only []
    omega
  · simp only []
    omega
  · simp only []
    omega

theorem binaryReadMBR_snd (file : File) :
    (binaryReadMBR file).2 = (ioReadFull file sizeMBR).2 := by
  unfold binaryReadMBR
  split <;> simp only [*]

theorem binaryReadGPTHeader_snd (file : File) :
    (binaryReadGPTHeader file).2 = (ioReadFull file sizeGPTHeader).2 := by
  unfold binaryReadGPTHeader
  split <;> simp only [*]

theorem processMBR_bytesRead_eq (file : File) :
    processMBR_bytesRead file = min 512 file.data.length := by
  unfold processMBR_bytesRead bytesRead
  rw [Seek_zero]
  simp only [binaryReadMBR_snd, ioReadFull_pos, show sizeMBR = 512 from rfl]
  omega

theorem processGPT_bytesRead_eq (file : File) :
    processGPT_bytesRead file = min 92 (file.data.length - 512) := by
  unfold processGPT_bytesRead bytesRead
  rw [Seek_512]
  simp only [binaryReadGPTHeader_snd, ioReadFull_pos, show sizeGPTHeader = 92 from rfl]
  omega

/-- The bytes read by the run on an image that was opened, by the result of
the classification. -/
theorem main_bytesRead_opened (Args : List String) (fs : FileSystem) (data : List Byte)
    (hargs : 2 ≤ Args.length) (hopen : fs (Args.getD 1 "") = .ok data) :
    main_bytesRead Args fs
      = match detect (openImage (Args.getD 1 "") data) with
        | .error _ => data.length
        | .ok .ProtectedGPT => 512 + min 92 (data.length - 512)
        | .ok .LegacyMBR => 512 + 512
        | .ok .Unrecognized => 512 := by
  unfold main_bytesRead
  rw [if_neg (by omega)]
  simp only [osOpen, hopen]
  by_cases hlen : 512 ≤ data.length
  · rw [detect_ok _ _ hlen, binaryReadMBR_ok _ _ hlen]
    simp only [processMBR_bytesRead_eq, processGPT_bytesRead_eq, bytesRead]
    by_cases hs : leAt data 510 2 = 0xAA55
    · have hs2 : (mbrAt data).Signature = 0xAA55 := hs
      by_cases ht : data.getD 450 0 = 0xEE
      · have ht2 : ((mbrAt data).Partitions.getD 0 Partition.zero).Type_ = 0xEE := ht
        rw [if_pos hs, if_pos ht, if_pos hs2, if_pos ht2]
      · have ht2 : ¬ ((mbrAt data).Partitions.getD 0 Partition.zero).Type_ = 0xEE := ht
        rw [if_pos hs, if_neg ht, if_pos hs2, if_neg ht2, Nat.min_eq_left hlen]
    · have hs2 : ¬ (mbrAt data).Signature = 0xAA55 := hs
      rw [if_neg hs, if_neg hs2]
  · obtain ⟨f, hf⟩ := binaryReadMBR_short (Args.getD 1 "") data (by omega)
    have hpos := ioReadFull_pos { name := Args.getD 1 "", data := data, pos := 0 } sizeMBR
    rw [← binaryReadMBR_snd, hf] at hpos
    rw [detect_short _ _ (by omega), hf]
    simp only [bytesRead, show sizeMBR = 512 from rfl] at hpos ⊢
    omega

/-- C14, as the claim states it: on the LegacyMBR path the run reads 512
bytes to classify the image and the same 512 bytes again in `processMBR`,
1024 bytes in all, which is more than 512 + 92. -/
theorem main_bytesRead_LegacyMBR_over_604 :
    detect (openImage "disk.img" (exampleSector 0x07 0x00 0x55 0xAA)) = .ok .LegacyMBR
    ∧ main_bytesRead ["partitionTableLocater", "disk.img"]
        (fun _ => .ok (exampleSector 0x07 0x00 0x55 0xAA)) = 1024
    ∧ ¬ main_bytesRead ["partitionTableLocater", "disk.img"]
        (fun _ => .ok (exampleSector 0x07 0x00 0x55 0xAA)) ≤ 512 + 92 := by
  have hd : detect (openImage "disk.img" (exampleSector 0x07 0x00 0x55 0xAA))
      = .ok .LegacyMBR := by
    rw [detect_ok _ _ (by decide)]
    rfl
  have hn := main_bytesRead_opened ["partitionTableLocater", "disk.img"]
    (fun _ => .ok (exampleSector 0x07 0x00 0x55 0xAA)) _ (by decide) rfl
  rw [show ["partitionTableLocater", "disk.img"].getD 1 "" = "disk.img" from rfl, hd] at hn
  simp only [] at hn
  exact ⟨hd, hn, by rw [hn]; decide⟩

/-- C14, amended: one run reads at most 512 + 92 = 604 bytes on the
ProtectedGPT path and exactly 512 bytes when the image is Unrecognized; on
the LegacyMBR path it reads 512 + 512 = 1024 bytes, the read of the
classification and the read of `processMBR`; no run reads more than 1024. -/
theorem main_bytesRead_bound (Args : List String) (fs : FileSystem) :
    main_bytesRead Args fs ≤ 512 + 512
    ∧ ∀ data, 2 ≤ Args.length → fs (Args.getD 1 "") = .ok data →
        (detect (openImage (Args.getD 1 "") data) = .ok .ProtectedGPT →
          main_bytesRead Args fs ≤ 512 + 92)
        ∧ (detect (openImage (Args.getD 1 "") data) = .ok .LegacyMBR →
          main_bytesRead Args fs = 512 + 512)
        ∧ (detect (openImage (Args.getD 1 "") data) = .ok .Unrecognized →
          main_bytesRead Args fs = 512) := by
  constructor
  · by_cases hargs : Args.length < 2
    · unfold main_bytesRead
      rw [if_pos hargs]
      omega
    · cases hopen : fs (Args.getD 1 "") with
      | error err =>
        unfold main_bytesRead
        rw [if_neg hargs]
        simp only [osOpen, hopen]
        omega
      | ok data =>
        rw [main_bytesRead_opened Args fs data (by omega) hopen]
        by_cases hlen : 512 ≤ data.length
        · rw [detect_ok _ _ hlen]
          split_ifs
          · exact Nat.add_le_add_left (Nat.le_trans (Nat.min_le_left _ _) (by decide)) _
          · exact Nat.le_refl _
          · exact Nat.le_add_right _ _
        · rw [detect_short _ _ (by omega)]
          simp only []
          omega
  · intro data hargs hopen
    rw [main_bytesRead_opened Args fs data hargs hopen]
    refine ⟨fun h => ?_, fun h => ?_, fun h => ?_⟩ <;> rw [h]
    exact Nat.add_le_add_left (Nat.min_le_left _ _) _

theorem main_bytesRead_bound_witness :
    main_bytesRead ["partitionTableLocater", "disk.img"]
        (fun _ => .ok (scenarioSector ++ oddHeader ++ oddHeader)) ≤ 512 + 92 :=
  ((main_bytesRead_bound ["partitionTableLocater", "disk.img"]
      (fun _ => .ok (scenarioSector ++ oddHeader ++ oddHeader))).2
    (scenarioSector ++ oddHeader ++ oddHeader) (by decide) rfl).1
    (by rw [detect_ok _ _ (by decide)]; rfl)

/-! ## What the result depends on -/

/-- C15: the variant depends on bytes 450, 510 and 511 only: two sources of
at least 512 bytes each that agree on these three bytes are classified
alike, however they differ elsewhere. -/
theorem detect_three_bytes (name1 name2 : String) (data1 data2 : List Byte)
    (h1 : 512 ≤ data1.length) (h2 : 512 ≤ data2.length)
    (e450 : data1[450]? = data2[450]?) (e510 : data1[510]? = data2[510]?)
    (e511 : data1[511]? = data2[511]?) :
    detect (openImage name1 data1) = detect (openImage name2 data2) := by
  have g : ∀ i, data1[i]? = data2[i]? → data1.getD i 0 = data2.getD i 0 := by
    intro i h
    rw [List.getD_eq_getElem?_getD, List.getD_eq_getElem?_getD, h]
  rw [detect_ok _ _ h1, detect_ok _ _ h2, leAt_two, leAt_two, g 450 e450, g 510 e510,
    g (510 + 1) e511]

theorem detect_three_bytes_witness :
    detect (openImage "a.img" (exampleSector 0xEE 0x07 0x55 0xAA))
      = detect (openImage "b.img" (scenarioSector ++ oddHeader)) :=
  detect_three_bytes "a.img" "b.img" (exampleSector 0xEE 0x07 0x55 0xAA)
    (scenarioSector ++ oddHeader) (by decide) (by decide) (by decide) (by decide) (by decide)

theorem mbrAt_take (data : List Byte) : mbrAt (data.take 512) = mbrAt data := by
  have h := mbrAt_window data
  rwa [List.drop_zero] at h

theorem gptHeaderAt_take (data : List Byte) :
    gptHeaderAt ((data.take 604).drop 512) 0 = gptHeaderAt data 512 := by
  rw [List.drop_take]
  exact gptHeaderAt_window data

theorem detect_mbrAt (fileName : String) (data : List Byte) (h : 512 ≤ data.length) :
    detect (openImage fileName data)
      = if (mbrAt data).Signature = 0xAA55 then
          if ((mbrAt data).Partitions.getD 0 Partition.zero).Type_ = 0xEE then
            .ok .ProtectedGPT
          else .ok .LegacyMBR
        else .ok .Unrecognized :=
  detect_ok fileName data h

/-- C16: the run reads nothing after the GPT header: two images of at least
604 bytes each that agree on their first 604 bytes give the same report and
the same exit status; and two images of at least 512 bytes each that agree
on their first 512 bytes, classified LegacyMBR or Unrecognized, give the same
report and exit status. -/
theorem main_same_on_equal_start (Args : List String) (fs1 fs2 : FileSystem)
    (data1 data2 : List Byte) (hopen1 : fs1 (Args.getD 1 "") = .ok data1)
    (hopen2 : fs2 (Args.getD 1 "") = .ok data2) :
    (604 ≤ data1.length → 604 ≤ data2.length → data1.take 604 = data2.take 604 →
      main Args fs1 = main Args fs2)
    ∧ (512 ≤ data1.length → 512 ≤ data2.length → data1.take 512 = data2.take 512 →
      (detect (openImage (Args.getD 1 "") data1) = .ok .LegacyMBR
        ∨ detect (openImage (Args.getD 1 "") data1) = .ok .Unrecognized) →
      main Args fs1 = main Args fs2) := by
  by_cases hargs : Args.length < 2
  · have h : main Args fs1 = main Args fs2 := by
      unfold main
      rw [if_pos hargs, if_pos hargs]
    exact ⟨fun _ _ _ => h, fun _ _ _ _ => h⟩
  · have hm1 := main_opened Args fs1 data1 (by omega) hopen1
    have hm2 := main_opened Args fs2 data2 (by omega) hopen2
    constructor
    · intro h1 h2 he
      have k1 : 512 ≤ data1.length := by omega
      have k2 : 512 ≤ data2.length := by omega
      have hmbr : mbrAt data1 = mbrAt data2 := by
        rw [← mbrAt_take data1, ← mbrAt_take data2]
        have : data1.take 512 = data2.take 512 := by
          have := congrArg (List.take 512) he
          simpa [List.take_take] using this
        rw [this]
      have hgpt : gptHeaderAt data1 512 = gptHeaderAt data2 512 := by
        rw [← gptHeaderAt_take data1, ← gptHeaderAt_take data2, he]
      have hdet : detect (openImage (Args.getD 1 "") data1)
          = detect (openImage (Args.getD 1 "") data2) := by
        rw [detect_mbrAt _ _ (by omega), detect_mbrAt _ _ (by omega), hmbr]
      rw [hm1, hm2, hdet,
        processGPT_ok { name := Args.getD 1 "", data := data1, pos := 512 } h1,
        processGPT_ok { name := Args.getD 1 "", data := data2, pos := 512 } h2,
        processMBR_ok { name := Args.getD 1 "", data := data1, pos := 512 } k1,
        processMBR_ok { name := Args.getD 1 "", data := data2, pos := 512 } k2]
      simp only [hmbr, hgpt]
    · intro h1 h2 he hv
      have hmbr : mbrAt data1 = mbrAt data2 := by
        rw [← mbrAt_take data1, ← mbrAt_take data2, he]
      have hdet : detect (openImage (Args.getD 1 "") data1)
          = detect (openImage (Args.getD 1 "") data2) := by
        rw [detect_mbrAt _ _ h1, detect_mbrAt _ _ h2, hmbr]
      rw [hm1, hm2, ← hdet,
        processMBR_ok { name := Args.getD 1 "", data := data1, pos := 512 } h1,
        processMBR_ok { name := Args.getD 1 "", data := data2, pos := 512 } h2]
      rcases hv with hv | hv <;> rw [hv]
      simp only [hmbr]

theorem main_same_on_equal_start_witness :
    main ["partitionTableLocater", "disk.img"] (fun _ => .ok (scenarioSector ++ oddHeader))
      = main ["partitionTableLocater", "disk.img"]
          (fun _ => .ok (scenarioSector ++ oddHeader ++ oddSector))
    ∧ main ["partitionTableLocater", "disk.img"]
          (fun _ => .ok (exampleSector 0x07 0xEE 0x55 0xAA))
      = main ["partitionTableLocater", "disk.img"]
          (fun _ => .ok (exampleSector 0x07 0xEE 0x55 0xAA ++ oddHeader)) :=
  ⟨(main_same_on_equal_start ["partitionTableLocater", "disk.img"]
      (fun _ => .ok (scenarioSector ++ oddHeader))
      (fun _ => .ok (scenarioSector ++ oddHeader ++ oddSector)) _ _ rfl rfl).1
      (by decide) (by decide) (by decide),
    (main_same_on_equal_start ["partitionTableLocater", "disk.img"]
      (fun _ => .ok (exampleSector 0x07 0xEE 0x55 0xAA))
      (fun _ => .ok (exampleSector 0x07 0xEE 0x55 0xAA ++ oddHeader)) _ _ rfl rfl).2
      (by decide) (by decide) (by decide)
      (Or.inl (by rw [detect_ok _ _ (by decide)]; rfl))⟩

/-! ## Opaque bytes and their rendering -/

theorem leAt_eight (data : List Byte) (off : Nat) :
    leAt data off 8 = (data.getD off 0).val + 2 ^ 8 * (data.getD (off + 1) 0).val
      + 2 ^ 16 * (data.getD (off + 2) 0).val + 2 ^ 24 * (data.getD (off + 3) 0).val
      + 2 ^ 32 * (data.getD (off + 4) 0).val + 2 ^ 40 * (data.getD (off + 5) 0).val
      + 2 ^ 48 * (data.getD (off + 6) 0).val + 2 ^ 56 * (data.getD (off + 7) 0).val := by
  simp only [leAt, Nat.add_assoc, Nat.reduceAdd]
  omega

theorem length_fmtx (l : List Byte) : (fmtx l).length = 2 * l.length := by
  induction l with
  | nil => rfl
  | cons b bs ih =>
    simp only [fmtx, List.length_cons, ih]
    omega

theorem digitChar_eq_hexLower : ∀ n, n < 16 → Nat.digitChar n = hexLower.getD n ' ' := by
  decide

theorem fmtx_getD (l : List Byte) (i : Nat) (h : i < l.length) :
    (fmtx l).getD (2 * i) ' ' = hexLower.getD ((l.getD i 0).val / 16) ' '
    ∧ (fmtx l).getD (2 * i + 1) ' ' = hexLower.getD ((l.getD i 0).val % 16) ' ' := by
  induction l generalizing i with
  | nil => simp at h
  | cons b bs ih =>
    cases i with
    | zero =>
      have hb := b.isLt
      simp only [fmtx, Nat.mul_zero, Nat.zero_add, List.getD_cons_zero, List.getD_cons_succ]
      exact ⟨digitChar_eq_hexLower _ (by omega), digitChar_eq_hexLower _ (by omega)⟩
    | succ i =>
      have h2 : i < bs.length := by simpa using h
      have e1 : 2 * (i + 1) = 2 * i + 1 + 1 := by omega
      rw [e1]
      simp only [fmtx, List.getD_cons_succ]
      exact ih i h2

/-- C17: on a source of at least 604 bytes the decoded diskGUID is bytes
568-583 of the source in file order, and the report renders it as 32
lower-case hexadecimal digits, the high and the low digit of each byte in
that order; partitionEntryLBA is the little-endian value of bytes 584-591 and
numberOfPartitions that of bytes 592-595. -/
theorem diskGUID_verbatim (file : File) (h : 604 ≤ file.data.length) :
    ∃ hdr, decodeGPT file = .ok hdr
      ∧ hdr.DiskGUID = (file.data.drop 568).take 16
      ∧ (processGPT file).1.getD 1 "" = "\tDisk GUID: " ++ String.mk (fmtx hdr.DiskGUID)
      ∧ (fmtx hdr.DiskGUID).length = 32
      ∧ (∀ i, i < 16 →
          (fmtx hdr.DiskGUID).getD (2 * i) ' '
              = hexLower.getD ((file.data.getD (568 + i) 0).val / 16) ' '
          ∧ (fmtx hdr.DiskGUID).getD (2 * i + 1) ' '
              = hexLower.getD ((file.data.getD (568 + i) 0).val % 16) ' ')
      ∧ hdr.PartitionEntryLBA
          = (file.data.getD 584 0).val + 2 ^ 8 * (file.data.getD 585 0).val
            + 2 ^ 16 * (file.data.getD 586 0).val + 2 ^ 24 * (file.data.getD 587 0).val
            + 2 ^ 32 * (file.data.getD 588 0).val + 2 ^ 40 * (file.data.getD 589 0).val
            + 2 ^ 48 * (file.data.getD 590 0).val + 2 ^ 56 * (file.data.getD 591 0).val
      ∧ hdr.NumberOfPartitions
          = (file.data.getD 592 0).val + 2 ^ 8 * (file.data.getD 593 0).val
            + 2 ^ 16 * (file.data.getD 594 0).val + 2 ^ 24 * (file.data.getD 595 0).val := by
  have hguid : (gptHeaderAt file.data 512).DiskGUID = (file.data.drop 568).take 16 :=
    bytesAt_eq_take_drop _ _ _ (by omega)
  have hlen : ((file.data.drop 568).take 16).length = 16 := by
    rw [List.length_take, List.length_drop]
    omega
  refine ⟨_, decodeGPT_ok file h, hguid, ?_, ?_, ?_, ?_, ?_⟩
  · rw [processGPT_ok file h]
    rfl
  · rw [length_fmtx, hguid, hlen]
  · intro i hi
    have := fmtx_getD ((file.data.drop 568).take 16) i (by rw [hlen]; exact hi)
    rw [getD_window _ _ _ _ hi] at this
    rw [hguid]
    exact this
  · exact leAt_eight file.data 584
  · exact leAt_four file.data 592

theorem diskGUID_verbatim_witness :
    ∃ hdr, decodeGPT (openImage "disk.img"
          (scenarioSector ++ encodeGPTHeader exampleHeader)) = .ok hdr
      ∧ String.mk (fmtx hdr.DiskGUID) = "1032547698badcfe0123456789abcdef"
      ∧ hdr.PartitionEntryLBA = 2 ∧ hdr.NumberOfPartitions = 128 :=
  match diskGUID_verbatim (openImage "disk.img"
      (scenarioSector ++ encodeGPTHeader exampleHeader)) (by decide) with
  | ⟨hdr, h1, h2, _, _, _, h6, h7⟩ =>
    ⟨hdr, h1, by rw [h2]; decide, h6.trans (by decide), h7.trans (by decide)⟩

/-! ## Detection and the read of the decoder -/

theorem length_of_detect_ok (fileName : String) (data : List Byte) (v : DiskLayoutVariant)
    (h : detect (openImage fileName data) = .ok v) : 512 ≤ data.length := by
  by_contra hlen
  rw [detect_short _ _ (by omega)] at h
  cases h

/-- C18: when detection returns LegacyMBR, the decodeLegacy that follows, on
the file as detection left it, succeeds and returns the table that detection
decoded, with boot signature 0xAA55 and a slot 0 type other than 0xEE; and
on any file decodeLegacy and decodeGPT give the same result wherever the
cursor is, since each seeks to its offset first. -/
theorem decodeLegacy_after_detect (fileName : String) (data : List Byte)
    (hdet : detect (openImage fileName data) = .ok .LegacyMBR) :
    (∃ mbr after, binaryReadMBR (openImage fileName data) = (.ok mbr, after)
      ∧ decodeLegacy after = .ok mbr
      ∧ mbr.Signature = 0xAA55
      ∧ (mbr.Partitions.getD 0 Partition.zero).Type_ ≠ 0xEE)
    ∧ ∀ (file : File) (pos : Nat),
        decodeLegacy { file with pos := pos } = decodeLegacy file
        ∧ decodeGPT { file with pos := pos } = decodeGPT file := by
  have hlen := length_of_detect_ok _ _ _ hdet
  refine ⟨⟨mbrAt data, _, binaryReadMBR_ok fileName data hlen, decodeLegacy_ok _ hlen, ?_⟩,
    fun file pos => ⟨rfl, rfl⟩⟩
  rw [detect_mbrAt _ _ hlen] at hdet
  split_ifs at hdet with hs ht
  · cases hdet
  · exact ⟨hs, ht⟩
  · cases hdet

theorem decodeLegacy_after_detect_witness :
    (∃ mbr after,
      binaryReadMBR (openImage "disk.img" (exampleSector 0x07 0xEE 0x55 0xAA)) = (.ok mbr, after)
      ∧ decodeLegacy after = .ok mbr
      ∧ mbr.Signature = 0xAA55
      ∧ (mbr.Partitions.getD 0 Partition.zero).Type_ ≠ 0xEE) :=
  (decodeLegacy_after_detect "disk.img" (exampleSector 0x07 0xEE 0x55 0xAA)
    (by rw [detect_ok _ _ (by decide)]; rfl)).1

end PartitionTableLocater
